import Mathlib

/-!
Verification of the IcyPaw Sparkplug-B node/device runtime framework.

This file shallowly embeds the parts of the `icypaw` Python package that the
verified properties speak about: the client-side liveness record
(`client_endpoint.py`), the topic codec (`topic.py`), the payload sequence
counter and metric organizer (`tahu_interface.py`), the type/value system
(`types.py`), the client message deduplication (`client.py`) and the server
engine publication step (`server_engine.py`).  Machine integers are modelled
as `Nat`/`Int` with explicit `% 2^w` where the source wraps; fallible code
returns `Except String`.
-/

set_option autoImplicit false

namespace Icypaw

/-! ## Client endpoint liveness (client_endpoint.py)

`ClientEndpoint` keeps `_last_birth_seq` and `_last_death_seq`, either `None`
or a number (a bdSeq byte, or a payload timestamp used as a fallback lifetime
sequence).  We model the pair of fields as a record of `Option Nat`. -/

structure LivenessRecord where
  lastBirthSeq : Option Nat
  lastDeathSeq : Option Nat
  deriving DecidableEq, Repr

/-- Translation of the `ClientEndpoint.is_online` property: nested
`if`-tests on the two optional sequence numbers. -/
def is_online (r : LivenessRecord) : Bool :=
  match r.lastBirthSeq with
  | some b =>
    match r.lastDeathSeq with
    | some d => decide (b > d) || (decide (d = 255) && decide (b < 255))
    | none => true
  | none => false

/-- Translation of `ClientEndpoint.update_from_tahu_death`: `seq` is the
lifetime sequence extracted from the death message (`None` when the message
had neither a bdSeq metric nor a timestamp). -/
def update_from_tahu_death (r : LivenessRecord) (seq : Option Nat) : LivenessRecord :=
  { r with lastDeathSeq := some (match seq with
      | some s => s
      | none => (r.lastDeathSeq.getD 0) + 1) }

/-- Translation of `ClientEndpoint.update_from_tahu_birth`'s final lines
(only the lifetime-sequence bookkeeping). -/
def update_from_tahu_birth (r : LivenessRecord) (seq : Option Nat) : LivenessRecord :=
  { r with lastBirthSeq := some (match seq with
      | some s => s
      | none => (r.lastBirthSeq.getD 0) + 1) }

/-! ## Topic codec (topic.py)

Python string primitives (`str.split`, `in`, `str.upper`) are modelled by
structurally recursive functions over the character list so that concrete
topics evaluate inside proofs. -/

/-- `str.split(sep)` for a one-character separator, on the character list.
Splitting the empty list yields one empty field, as in Python. -/
def splitChar (c : Char) : List Char → List (List Char)
  | [] => [[]]
  | x :: xs =>
    let r := splitChar c xs
    if x = c then [] :: r
    else
      match r with
      | [] => [[x]]
      | y :: ys => (x :: y) :: ys

/-- `topic_string.split('/')`. -/
def pySplit (s : String) (c : Char) : List String :=
  (splitChar c s.toList).map (fun l => String.mk l)

/-- `c in s` for a single character `c`. -/
def pyContains (s : String) (c : Char) : Bool :=
  s.toList.contains c

/-- `str.upper()` (the topic components are ASCII). -/
def pyToUpper (s : String) : String :=
  String.mk (s.toList.map Char.toUpper)

/-- The three classes `NodeTopic`, `DeviceTopic` and `StateTopic` produced by
`parse_topic`.  Components are stored after validation; the message type is
stored upper-cased as in the constructors. -/
inductive Topic where
  | node (namespace_ group_id message_type edge_node_id : String)
  | device (namespace_ group_id message_type edge_node_id device_id : String)
  | state (scada_host_id : String)
  deriving DecidableEq, Repr

/-- Translation of `validate_topic_component`: a lone `+` is allowed, any
other component may not contain `#`, `/` or `+`. -/
def validate_topic_component (c : String) : Except String String :=
  if c = "+" then .ok c
  else if pyContains c '#' || pyContains c '/' || pyContains c '+' then
    .error "Topic component contains one of #, /, or +"
  else .ok c

/-- `NodeTopic.__init__`: validate all four components, upper-case the
message type. -/
def mkNodeTopic (ns g mt en : String) : Except String Topic := do
  let ns ← validate_topic_component ns
  let g ← validate_topic_component g
  let mt ← validate_topic_component mt
  let en ← validate_topic_component en
  .ok (.node ns g (pyToUpper mt) en)

/-- `DeviceTopic.__init__`. -/
def mkDeviceTopic (ns g mt en d : String) : Except String Topic := do
  let ns ← validate_topic_component ns
  let g ← validate_topic_component g
  let mt ← validate_topic_component mt
  let en ← validate_topic_component en
  let d ← validate_topic_component d
  .ok (.device ns g (pyToUpper mt) en d)

/-- `StateTopic.__init__`. -/
def mkStateTopic (h : String) : Except String Topic := do
  let h ← validate_topic_component h
  .ok (.state h)

/-- Translation of `parse_topic`: two fields whose first upper-cases to
`STATE` make a state topic, four fields a node topic, five a device topic,
anything else is an error. -/
def parse_topic (t : String) : Except String Topic :=
  match pySplit t '/' with
  | [f0, f1] =>
    if pyToUpper f0 = "STATE" then mkStateTopic f1
    else .error "Topic must have 2, 4, or 5 fields"
  | [ns, g, mt, en] => mkNodeTopic ns g mt en
  | [ns, g, mt, en, d] => mkDeviceTopic ns g mt en d
  | _ => .error "Topic must have 2, 4, or 5 fields"

/-- The `topic` properties of the three classes.  `StateTopic.topic` in the
source returns the plain string literal `"STATE/{self._scada_host_id}"`: the
line lacks the `f` string prefix, so no interpolation happens and the host id
is dropped.  We translate that literal faithfully (`\x7b`/`\x7d` are the brace
characters). -/
def Topic.topic : Topic → String
  | .node ns g mt en => ns ++ "/" ++ g ++ "/" ++ mt ++ "/" ++ en
  | .device ns g mt en d => ns ++ "/" ++ g ++ "/" ++ mt ++ "/" ++ en ++ "/" ++ d
  | .state _ => "STATE/\x7bself._scada_host_id\x7d"

/-! ## The payload sequence counter `Seq` (tahu_interface.py)

An 8-bit wrapping counter.  `_advance` computes `(seq + 1) & 0xff`, which on
the non-negative values the counter takes equals `(seq + 1) % 256`. -/

structure Seq where
  seq : Nat
  deriving DecidableEq, Repr

def Seq.reset (_ : Seq) : Seq := ⟨0⟩

def Seq.advance (s : Seq) : Seq := ⟨(s.seq + 1) % 256⟩

/-- `Seq.get_and_advance`: return the current value, then advance. -/
def Seq.get_and_advance (s : Seq) : Nat × Seq := (s.seq, s.advance)

/-- `Seq.reset_and_advance`: reset to 0, then `get_and_advance`. -/
def Seq.reset_and_advance (s : Seq) : Nat × Seq := (s.reset).get_and_advance

/-- The payload kinds a `TahuServerInterface` stamps with a sequence number.
`new_nbirth` uses `reset_and_advance`; `new_dbirth`, `new_ndata`, `new_ddata`
and `new_ddeath` all go through `new_seq_payload`, i.e. `get_and_advance`.
(`new_ndeath` and the command payloads carry no `seq` and are not modelled.) -/
inductive ServerMsg where
  | nbirth | dbirth | ndata | ddata | ddeath
  deriving DecidableEq, Repr

/-- The `seq` stamped into one payload of the given kind, with the successor
counter state. -/
def emitSeq : ServerMsg → Seq → Nat × Seq
  | .nbirth, s => s.reset_and_advance
  | .dbirth, s => s.get_and_advance
  | .ndata, s => s.get_and_advance
  | .ddata, s => s.get_and_advance
  | .ddeath, s => s.get_and_advance

/-- The list of `seq` values stamped on a run of payloads. -/
def runSeqs : List ServerMsg → Seq → List Nat
  | [], _ => []
  | m :: ms, s =>
    let p := emitSeq m s
    p.1 :: runSeqs ms p.2

/-! ## Python dicts

Python `dict`s preserve insertion order; assignment replaces the value of an
existing key in place and appends a new key at the end.  We model them as
association lists with exactly that update rule. -/

/-- `d.get(k)` / `d[k]`. -/
def alookup {α : Type} : List (String × α) → String → Option α
  | [], _ => none
  | (k, v) :: rest, key => if k = key then some v else alookup rest key

/-- `d[k] = v`. -/
def astore {α : Type} : List (String × α) → String → α → List (String × α)
  | [], key, v => [(key, v)]
  | (k, w) :: rest, key, v =>
    if k = key then (key, v) :: rest else (k, w) :: astore rest key v

/-- `k in d`. -/
def amem {α : Type} (d : List (String × α)) (key : String) : Bool :=
  (alookup d key).isSome

/-- `del d[k]` (the key is assumed present by callers that checked `amem`). -/
def adelete {α : Type} : List (String × α) → String → List (String × α)
  | [], _ => []
  | (k, w) :: rest, key =>
    if k = key then rest else (k, w) :: adelete rest key

/-- `d.update(other)`: assign every pair of `other` into `d` in order. -/
def aupdate {α : Type} (d other : List (String × α)) : List (String × α) :=
  other.foldl (fun acc p => astore acc p.1 p.2) d

/-- Whether a fallible call returned normally (no exception raised). -/
def exceptIsOk {α : Type} : Except String α → Bool
  | .ok _ => true
  | .error _ => false

/-! ## Wire values (proto sparkplug_b_pb2)

The protobuf `Payload.Metric` carries a `oneof value`; reading a field of the
oneof that is not set returns the proto default (0, `false`, `""`, or an
empty message).  `Payload.DataSet` rows hold `DataSetValue` elements whose
oneof admits only scalar members, so dataset elements get their own
non-recursive type.  Metrics nested inside a `Template` are modelled by the
fields of theirs that the source reads: `name`, `datatype`, `is_null` and
the value oneof. -/

inductive WElem where
  | enone
  | eint (n : Nat)
  | elong (n : Nat)
  | edouble (bits : Nat)
  | ebool (b : Bool)
  | estring (s : String)
  deriving DecidableEq, Repr

mutual
inductive WValue where
  | vnone
  | vint (n : Nat)
  | vlong (n : Nat)
  | vdouble (bits : Nat)
  | vbool (b : Bool)
  | vstring (s : String)
  | vdataset (numCols : Nat) (types : List Nat) (rows : List (List WElem))
  | vtemplate (ref : Option String) (isDef : Bool) (metrics : WMetrics)
  deriving DecidableEq, Repr
inductive WMetrics where
  | nil
  | cons (name : String) (datatype : Nat) (isNull : Bool) (value : WValue) (rest : WMetrics)
  deriving DecidableEq, Repr
end

def WValue.intValue : WValue → Nat
  | .vint n => n
  | _ => 0

def WValue.longValue : WValue → Nat
  | .vlong n => n
  | _ => 0

def WValue.doubleBits : WValue → Nat
  | .vdouble b => b
  | _ => 0

def WValue.boolValue : WValue → Bool
  | .vbool b => b
  | _ => false

def WValue.stringValue : WValue → String
  | .vstring s => s
  | _ => ""

def WElem.intValue : WElem → Nat
  | .eint n => n
  | _ => 0

def WElem.longValue : WElem → Nat
  | .elong n => n
  | _ => 0

def WElem.doubleBits : WElem → Nat
  | .edouble b => b
  | _ => 0

def WElem.boolValue : WElem → Bool
  | .ebool b => b
  | _ => false

def WElem.stringValue : WElem → String
  | .estring s => s
  | _ => ""

/-- The names of a template's metric list, in order. -/
def WMetrics.names : WMetrics → List String
  | .nil => []
  | .cons n _ _ _ rest => n :: rest.names

/-- A template's metric list as a plain list of
`(name, datatype, is_null, value)` tuples. -/
def WMetrics.toList : WMetrics → List (String × Nat × Bool × WValue)
  | .nil => []
  | .cons n dt inull v rest => (n, dt, inull, v) :: rest.toList

/-- A top-level `Payload.Metric` with the fields the source uses. -/
structure PMetric where
  name : Option String := none
  alias_ : Option Nat := none
  timestamp : Option Nat := none
  datatype : Nat := 0
  isNull : Bool := false
  isHistorical : Bool := false
  isTransient : Bool := false
  value : WValue := .vnone
  deriving DecidableEq, Repr

/-- A `Payload`: timestamp, 8-bit `seq` and the ordered metric list. -/
structure TPayload where
  timestamp : Option Nat := none
  seq : Option Nat := none
  metrics : List PMetric := []
  deriving DecidableEq, Repr

/-! ## Integer reinterpretation helpers (tahu_interface.py)

`convert_to_unsigned32/64` and `convert_to_signed32/64` reinterpret the same
bit pattern via `struct.pack`/`unpack`.  The source raises
`TahuInterfaceError` outside `[-2^(w-1), 2^w)`; all call sites reached in the
verified statements pass constructor-range-checked values, so we translate
the in-range behaviour. -/

def convert_to_unsigned32 (v : Int) : Nat := (v % (2 ^ 32)).toNat

def convert_to_unsigned64 (v : Int) : Nat := (v % (2 ^ 64)).toNat

def convert_to_signed32 (u : Nat) : Int :=
  if u < 2 ^ 31 then (u : Int) else (u : Int) - 2 ^ 32

def convert_to_signed64 (u : Nat) : Int :=
  if u < 2 ^ 63 then (u : Int) else (u : Int) - 2 ^ 64

/-! ## Icypaw values (types.py)

A Python `datetime` is a wall-clock reading plus an optional timezone: `none`
models a naive datetime, `some o` an aware one with UTC offset `o` (in
microseconds).  `datetime.__eq__` compares wall clocks between two naive
values, instants between two aware values, and returns `False` between a
naive and an aware value. -/

structure PyDateTime where
  wallMicros : Int
  tzOffsetMicros : Option Int
  deriving DecidableEq, Repr

/-- Python `==` on two datetimes. -/
def PyDateTime.pyEq (a b : PyDateTime) : Bool :=
  match a.tzOffsetMicros, b.tzOffsetMicros with
  | none, none => a.wallMicros == b.wallMicros
  | some oa, some ob => (a.wallMicros - oa) == (b.wallMicros - ob)
  | _, _ => false

/-- The scalar `IcypawScalarType` subclasses: `Int32`, `UInt32`, `Int64`,
`UInt64`, `Double`, `Boolean`, `String`, `DateTime`.  A `Double` is carried
verbatim through the wire (`float(value)` on a float is the identity), so we
model it by its representation `bits`. -/
inductive SValue where
  | int32 (v : Int)
  | uint32 (v : Nat)
  | int64 (v : Int)
  | uint64 (v : Nat)
  | double (bits : Nat)
  | boolean (b : Bool)
  | string (s : String)
  | datetime (d : PyDateTime)
  deriving DecidableEq, Repr

/-- The `datatype` class attribute (`DataType` enum value) of each scalar
class. -/
def SValue.datatypeCode : SValue → Nat
  | .int32 _ => 3
  | .uint32 _ => 7
  | .int64 _ => 4
  | .uint64 _ => 8
  | .double _ => 10
  | .boolean _ => 11
  | .string _ => 12
  | .datetime _ => 13

/-- Whether two scalar values are instances of the same
`IcypawScalarType` subclass. -/
def SValue.sameClass (a b : SValue) : Bool :=
  a.datatypeCode == b.datatypeCode

/-- The constructor range checks of the scalar classes (`TypeError` outside
the range). -/
def SValue.wfRange : SValue → Prop
  | .int32 v => -(2 ^ 31) ≤ v ∧ v < 2 ^ 31
  | .uint32 v => v < 2 ^ 32
  | .int64 v => -(2 ^ 63) ≤ v ∧ v < 2 ^ 63
  | .uint64 v => v < 2 ^ 64
  | _ => True

def SValue.isDatetime : SValue → Bool
  | .datetime _ => true
  | _ => false

/-! An `IcypawType` value: a scalar, a `Struct` (ordered field map plus its
`network_name`), or an `ArrayType` (the element column datatypes from
`self._type`, and the rows; a single-column array stores one-element
rows). -/
mutual
inductive IValue where
  | scalar (s : SValue)
  | struct (network_name : String) (fields : IFields)
  | array (cols : List Nat) (rows : List (List SValue))
  deriving DecidableEq, Repr
inductive IFields where
  | nil
  | cons (name : String) (v : IValue) (rest : IFields)
  deriving DecidableEq, Repr
end

/-- The field names of a struct value, in declaration order. -/
def IFields.names : IFields → List String
  | .nil => []
  | .cons n _ rest => n :: rest.names

/-- `self._value[name]` on a struct's field dict. -/
def IFields.lookup : IFields → String → Option IValue
  | .nil, _ => none
  | .cons k v rest, n => if k = n then some v else rest.lookup n

/-- The `datatype` used when the value is written into a metric. -/
def IValue.datatypeCode : IValue → Nat
  | .scalar s => s.datatypeCode
  | .struct _ _ => 19
  | .array _ _ => 16

/-! ### Encoding: `set_in_metric` / `set_in_tahu_object` -/

/-- Scalar `set_in_metric`: the value field written by
`set_metric_value(self._value, self.datatype, metric)`.  For `DateTime` the
source computes
`int(self._value.replace(tzinfo=utc).timestamp() * 1000)` — the wall clock
reinterpreted as UTC, truncated to milliseconds (`Int.tdiv` truncates toward
zero like Python's `int()`; the float detour is not modelled, and a negative
result would make the `uint64` protobuf assignment raise). -/
def SValue.enc : SValue → WValue
  | .int32 v => .vint (convert_to_unsigned32 v)
  | .uint32 v => .vint (convert_to_unsigned32 v)
  | .int64 v => .vlong (convert_to_unsigned64 v)
  | .uint64 v => .vlong (convert_to_unsigned64 v)
  | .double b => .vdouble b
  | .boolean b => .vbool b
  | .string s => .vstring s
  | .datetime d => .vlong (d.wallMicros.tdiv 1000).toNat

/-- `set_in_tahu_object` on a `DataSetValue` element, dispatching on the
column datatype as the source does.  The `DateTime` column case in the
source assigns the raw `datetime` object to `long_value` and raises
`TypeError`; it is excluded by well-formedness and mapped to a dummy. -/
def encElem (c : Nat) (sv : SValue) : WElem :=
  if c = 3 then .eint (convert_to_unsigned32 (match sv with | .int32 v => v | _ => 0))
  else if c = 7 then .eint (convert_to_unsigned32 (match sv with | .uint32 v => (v : Int) | _ => 0))
  else if c = 4 then .elong (convert_to_unsigned64 (match sv with | .int64 v => v | _ => 0))
  else if c = 8 then .elong (convert_to_unsigned64 (match sv with | .uint64 v => (v : Int) | _ => 0))
  else if c = 10 then .edouble (match sv with | .double b => b | _ => 0)
  else if c = 11 then .ebool (match sv with | .boolean b => b | _ => false)
  else if c = 12 then .estring (match sv with | .string s => s | _ => "")
  else .enone

/-- One dataset row as encoded by `ArrayType.set_in_metric`: elements paired
with the column datatypes of `self._type`. -/
def encRow (cols : List Nat) (r : List SValue) : List WElem :=
  List.zipWith encElem cols r

/-! `set_in_metric` for the whole value hierarchy.
`Struct.make_tahu_template` emits `template_ref` and one named submetric per
field, in field order, each filled in by the field value's own
`set_in_metric` (`is_definition` and `is_null` are left at their proto
defaults).  `ArrayType.set_in_metric` emits `num_of_columns`, the column
datatypes and the rows. -/
mutual
def IValue.encValue : IValue → WValue
  | .scalar sv => sv.enc
  | .struct ref fs => .vtemplate (some ref) false (encFields fs)
  | .array cols rows => .vdataset cols.length cols (rows.map (fun r => encRow cols r))
def encFields : IFields → WMetrics
  | .nil => .nil
  | .cons n v rest => .cons n v.datatypeCode false v.encValue (encFields rest)
end

/-- `IcypawType.set_in_metric` at the metric level (`set_metric_value` sets
`datatype` and the value oneof; no other metric field is touched). -/
def set_in_metric (v : IValue) (m : PMetric) : PMetric :=
  { m with datatype := v.datatypeCode, value := v.encValue }

/-! ### Decoding: `merge_with_metric` / `value_from_metric` -/

/-- A scalar class's `merge_with_metric`, dispatching on the receiving
object's class as Python method resolution does.  `DateTime` consults
`metric.is_null` (`datetime.utcfromtimestamp(0)` is the naive epoch) and
otherwise builds `datetime.fromtimestamp(long_value / 1000, tz=tzlocal())`,
an aware datetime in the local timezone; `localOff` is that environment
offset in microseconds. -/
def mergeScalar (localOff : Int) (cur : SValue) (isNull : Bool) (w : WValue) : SValue :=
  match cur with
  | .int32 _ => .int32 (convert_to_signed32 w.intValue)
  | .uint32 _ => .uint32 w.intValue
  | .int64 _ => .int64 (convert_to_signed64 w.longValue)
  | .uint64 _ => .uint64 w.longValue
  | .double _ => .double w.doubleBits
  | .boolean _ => .boolean w.boolValue
  | .string _ => .string w.stringValue
  | .datetime _ =>
    if isNull then .datetime ⟨0, none⟩
    else .datetime ⟨(w.longValue : Int) * 1000 + localOff, some localOff⟩

/-- `value_from_metric(row.elements[i], scalar_class)` for a dataset
element: the class default merged with the element, which for every scalar
class ignores the prior value.  The `DateTime` case reads `metric.is_null`,
which a `DataSetValue` does not have — the source raises `AttributeError`
there; the case is excluded by well-formedness and mapped to a dummy. -/
def decElem (c : Nat) (e : WElem) : SValue :=
  if c = 3 then .int32 (convert_to_signed32 e.intValue)
  else if c = 7 then .uint32 e.intValue
  else if c = 4 then .int64 (convert_to_signed64 e.longValue)
  else if c = 8 then .uint64 e.longValue
  else if c = 10 then .double e.doubleBits
  else if c = 11 then .boolean e.boolValue
  else if c = 12 then .string e.stringValue
  else .boolean false

/-- One dataset row as rebuilt by `ArrayType.merge_with_metric`: elements
paired with the column types of the receiving array's `self._type` (the
dataset's own `types` field is not consulted). -/
def decodeRow (cols : List Nat) (r : List WElem) : List SValue :=
  List.zipWith decElem cols r

/-- `self._value[submetric.name].merge_with_metric(submetric)` updates one
entry of the field dict in place.  A key naming no field raises `KeyError`
in the source; here the update leaves the fields unchanged, and every
verified statement restricts to submetrics naming existing fields. -/
def IFields.update : IFields → String → (IValue → IValue) → IFields
  | .nil, _, _ => .nil
  | .cons k old rest, n, f =>
    if k = n then .cons k (f old) rest
    else .cons k old (rest.update n f)

/-! `merge_with_metric` for the whole hierarchy.  A `Struct` walks the
incoming template's metric list in order and merges each submetric into
`self._value[submetric.name]`.  An `ArrayType` rebuilds its whole row list
from the dataset. -/
mutual
def mergeValue (localOff : Int) : IValue → Bool → WValue → IValue
  | .scalar sv, isNull, w => .scalar (mergeScalar localOff sv isNull w)
  | .struct ref fs, _, w =>
    match w with
    | .vtemplate _ _ ms => .struct ref (mergeFields localOff fs ms)
    | _ => .struct ref fs
  | .array cols _, _, w =>
    match w with
    | .vdataset _ _ rows => .array cols (rows.map (fun r => decodeRow cols r))
    | _ => .array cols []
def mergeFields (localOff : Int) : IFields → WMetrics → IFields
  | fs, .nil => fs
  | fs, .cons n _ inull v rest =>
    mergeFields localOff (fs.update n (fun old => mergeValue localOff old inull v)) rest
end

/-- `value_from_metric(metric, icpw_type)`: construct the type's instance and
merge the metric into it.  `w` stands for the freshly constructed instance
`icpw_type()` (for structs its fields carry the declared `Field` defaults);
the theorems quantify over every same-typed `w`, which covers it. -/
def value_from_metric (localOff : Int) (w : IValue) (m : PMetric) : IValue :=
  mergeValue localOff w m.isNull m.value

/-- The module-level `merge_with_metric` helper used by
`ClientEndpointMetric.update_from_tahu`: a null metric yields `None`, a
missing current value is replaced by the type's default instance `dflt`. -/
def merge_with_metric (localOff : Int) (icpw_value : Option IValue) (m : PMetric)
    (dflt : IValue) : Option IValue :=
  if m.isNull then none
  else some (mergeValue localOff (icpw_value.getD dflt) m.isNull m.value)

/-! ### Typing and well-formedness -/

/-! Two values are instances of the same Icypaw type (same scalar class,
same template with pointwise same-typed fields, or same array column
signature). -/
mutual
inductive SameTyV : IValue → IValue → Prop where
  | scalar {a b : SValue} : a.sameClass b = true → SameTyV (.scalar a) (.scalar b)
  | struct {ref : String} {fa fb : IFields} : SameTyF fa fb →
      SameTyV (.struct ref fa) (.struct ref fb)
  | array {cols : List Nat} {ra rb : List (List SValue)} :
      SameTyV (.array cols ra) (.array cols rb)
inductive SameTyF : IFields → IFields → Prop where
  | nil : SameTyF .nil .nil
  | cons {n : String} {v w : IValue} {fa fb : IFields} : SameTyV v w → SameTyF fa fb →
      SameTyF (.cons n v fa) (.cons n w fb)
end

/-! Well-formedness of a value for the round-trip statement: constructor
range invariants hold, no `DateTime` occurs (its wire round trip is lossy —
see the C6 counterexample — and dataset columns of that class crash the
source), struct field names are distinct (Python dict keys), and array rows
match the column signature elementwise. -/
mutual
inductive WFV : IValue → Prop where
  | scalar {s : SValue} : s.wfRange → s.isDatetime = false → WFV (.scalar s)
  | struct {ref : String} {fs : IFields} : WFF fs → fs.names.Nodup → WFV (.struct ref fs)
  | array {cols : List Nat} {rows : List (List SValue)} :
      (∀ r ∈ rows, List.Forall₂
        (fun c sv => SValue.datatypeCode sv = c ∧ SValue.wfRange sv ∧
          SValue.isDatetime sv = false) cols r) →
      WFV (.array cols rows)
inductive WFF : IFields → Prop where
  | nil : WFF .nil
  | cons {n : String} {v : IValue} {rest : IFields} : WFV v → WFF rest →
      WFF (.cons n v rest)
end

/-! ## Client message deduplication (client.py)

`IcypawClient._on_message_no_try` drops empty payloads, then — when the
payload has both a timestamp and a seq — compares the `(timestamp, seq)`
fingerprint against `_seen_messages[topic]` and returns early on a match;
otherwise it stores the fingerprint and proceeds to the table update and the
user callback routing. -/

structure InMsg where
  topic : String
  payloadEmpty : Bool
  timestamp : Option Nat
  seq : Option Nat
  deriving DecidableEq, Repr

/-- One execution of `_on_message_no_try` up to the dispatch step: returns
whether the message proceeds to table update and user routing, and the new
`_seen_messages` map. -/
def clientStep (seen : List (String × Nat × Nat)) (m : InMsg) :
    Bool × List (String × Nat × Nat) :=
  if m.payloadEmpty then (false, seen)
  else
    match m.timestamp, m.seq with
    | some t, some s =>
      if alookup seen m.topic = some (t, s) then (false, seen)
      else (true, astore seen m.topic (t, s))
    | _, _ => (true, seen)

/-- Processing flags for a delivery sequence: `true` at position `i` iff the
`i`-th delivered message reached the table update and user routing. -/
def clientRun (seen : List (String × Nat × Nat)) : List InMsg → List Bool
  | [] => []
  | m :: ms =>
    let p := clientStep seen m
    p.1 :: clientRun p.2 ms

/-! ## Metric organizer (tahu_interface.py) -/

/-- The submetric value-clearing loop of
`MetricOrganizer._make_template_definition`: every submetric whose datatype
is not DataSet (16) has its value oneof cleared. -/
def clearNonDatasetValues : WMetrics → WMetrics
  | .nil => .nil
  | .cons n dt inull v rest =>
    .cons n dt inull (if dt = 16 then v else .vnone) (clearNonDatasetValues rest)

/-- `MetricOrganizer._make_template_definition`: copy the template instance,
set `is_definition`, take the reference name (proto default `""` when
unset), clear `template_ref`, and clear non-DataSet submetric values.
Returns the definition and the name identifying it.  (The caller only
reaches this with a template value; the fall-through arm is inert.) -/
def make_template_definition (t : WValue) : WValue × String :=
  match t with
  | .vtemplate ref _ ms => (.vtemplate none true (clearNonDatasetValues ms), ref.getD "")
  | w => (w, "")

/-- The `MetricOrganizer` state: last-value table, uncommitted list, alias
counter and name→alias map, collected template definitions, committed
flag. -/
structure MetricOrganizer where
  metrics : List (String × PMetric) := []
  uncommitted_metrics : List PMetric := []
  next_alias : Nat := 0
  metric_names_to_aliases : List (String × Nat) := []
  template_definitions : List (String × WValue) := []
  committed : Bool := false
  deriving DecidableEq, Repr

/-- `MetricOrganizer._add_metric`: a nameless metric is an error; a known
name reuses its alias, a new name takes `next_alias` and advances the
counter; the alias is written into the stored metric; a template-valued
metric deposits its extracted definition; the metric is stored under its
name. -/
def MetricOrganizer._add_metric (o : MetricOrganizer) (m : PMetric) :
    Except String MetricOrganizer :=
  match m.name with
  | none => .error "Initial metrics must have a name"
  | some nm =>
    let p : Nat × List (String × Nat) × Nat :=
      match alookup o.metric_names_to_aliases nm with
      | some a => (a, o.metric_names_to_aliases, o.next_alias)
      | none => (o.next_alias, astore o.metric_names_to_aliases nm o.next_alias,
          o.next_alias + 1)
    let m2 := { m with alias_ := some p.1 }
    let tdefs :=
      match m2.value with
      | .vtemplate ref isDef ms =>
        astore o.template_definitions
          (make_template_definition (.vtemplate ref isDef ms)).2
          (make_template_definition (.vtemplate ref isDef ms)).1
      | _ => o.template_definitions
    .ok { o with metrics := astore o.metrics nm m2,
                 metric_names_to_aliases := p.2.1, next_alias := p.2.2,
                 template_definitions := tdefs }

/-- The `for` loop of `set_initial_metrics`. -/
def addAllMetrics (o : MetricOrganizer) : List PMetric → Except String MetricOrganizer
  | [] => .ok o
  | m :: ms => do
    let o2 ← o._add_metric m
    addAllMetrics o2 ms

/-- `MetricOrganizer.set_initial_metrics`: add every metric, set the
committed flag, return the template-definition dict.  Note the source never
checks the committed flag here — the organizer itself is not sealed. -/
def MetricOrganizer.set_initial_metrics (o : MetricOrganizer) (ms : List PMetric) :
    Except String (MetricOrganizer × List (String × WValue)) := do
  let o2 ← addAllMetrics o ms
  let o3 := { o2 with committed := true }
  .ok (o3, o3.template_definitions)

/-- `MetricOrganizer.delete`: silently ignore an unknown name; otherwise
drop the metric from the table and from the uncommitted list (a metric
without a name reads as `""` on the proto).  The name→alias map is not
touched. -/
def MetricOrganizer.delete (o : MetricOrganizer) (nm : String) : MetricOrganizer :=
  if amem o.metrics nm then
    { o with metrics := adelete o.metrics nm,
             uncommitted_metrics := o.uncommitted_metrics.filter
               (fun m => (m.name.getD "") ≠ nm) }
  else o

/-- `MetricOrganizer._commit_metrics`: fold the uncommitted metrics into the
table and clear the list. -/
def MetricOrganizer._commit_metrics (o : MetricOrganizer) : MetricOrganizer :=
  { o with metrics := o.uncommitted_metrics.foldl
             (fun acc m => astore acc (m.name.getD "") m) o.metrics,
           uncommitted_metrics := [] }

/-- The `for` loop of `get_all`: copy each stored metric, fill in its name
and its alias (a missing alias raises `KeyError` in the source). -/
def collectWithAliases (n2a : List (String × Nat)) :
    List (String × PMetric) → Except String (List PMetric)
  | [] => .ok []
  | p :: rest =>
    match alookup n2a p.1 with
    | none => .error "KeyError"
    | some a =>
      (collectWithAliases n2a rest).map
        (fun l => { p.2 with name := some p.1, alias_ := some a } :: l)

/-- `MetricOrganizer.get_all`: commit, then return a copy of every stored
metric with both its name and its alias filled in. -/
def MetricOrganizer.get_all (o : MetricOrganizer) :
    Except String (List PMetric × MetricOrganizer) := do
  let o2 := o._commit_metrics
  let ms ← collectWithAliases o2.metric_names_to_aliases o2.metrics
  .ok (ms, o2)

/-- `MetricOrganizer.get_alias`. -/
def MetricOrganizer.get_alias (o : MetricOrganizer) (nm : String) : Except String Nat :=
  match alookup o.metric_names_to_aliases nm with
  | some a => .ok a
  | none => .error "No alias registered"

/-- The dict comprehension `{v: k for k, v in self._metric_names_to_aliases}`
builds the inverse map with later entries overwriting earlier ones, so a
lookup finds the last name bound to the alias. -/
def invLookupLast : List (String × Nat) → Nat → Option String
  | [], _ => none
  | (k, v) :: rest, a =>
    match invLookupLast rest a with
    | some r => some r
    | none => if v = a then some k else none

/-- `MetricOrganizer.get_name`. -/
def MetricOrganizer.get_name (o : MetricOrganizer) (a : Nat) : Except String String :=
  match invLookupLast o.metric_names_to_aliases a with
  | some nm => .ok nm
  | none => .error "No name for alias"

/-! ## Server wire interface (tahu_interface.py)

`TahuServerInterface` state: the bdSeq, the `Seq` counter, the `born` flag,
the collected templates, the node's organizer (key `''` in the source) and
one organizer per registered device. -/

structure TahuServerIface where
  bdSeq : Option Nat := none
  seqSt : Seq := ⟨0⟩
  is_born : Bool := false
  templates : List (String × WValue) := []
  node_organizer : MetricOrganizer := {}
  device_organizers : List (String × MetricOrganizer) := []
  deriving DecidableEq, Repr

/-- `TahuServerInterface.register_device`: a fresh organizer for the
device. -/
def TahuServerIface.register_device (i : TahuServerIface) (nm : String) : TahuServerIface :=
  { i with device_organizers := astore i.device_organizers nm {} }

/-- `TahuServerInterface.set_initial_node_metrics`: refuse after a BIRTH has
been issued, otherwise delegate to the node organizer and merge its template
definitions. -/
def TahuServerIface.set_initial_node_metrics (i : TahuServerIface) (ms : List PMetric) :
    Except String TahuServerIface :=
  if i.is_born then .error "Cannot set initial metrics after issuing BIRTH message"
  else do
    let r ← i.node_organizer.set_initial_metrics ms
    .ok { i with node_organizer := r.1, templates := aupdate i.templates r.2 }

/-- `TahuServerInterface.set_initial_device_metrics`: no `born` check —
delegate to the device's organizer (a `KeyError` if the device was never
registered) and merge its template definitions. -/
def TahuServerIface.set_initial_device_metrics (i : TahuServerIface) (device : String)
    (ms : List PMetric) : Except String TahuServerIface :=
  match alookup i.device_organizers device with
  | none => .error "KeyError"
  | some o => do
    let r ← o.set_initial_metrics ms
    .ok { i with device_organizers := astore i.device_organizers device r.1,
                 templates := aupdate i.templates r.2 }

/-- `TahuServerInterface._fill_in_bdseq_metric` with the bdSeq known to be
set: name `bdSeq`, the timestamp when given, datatype UInt64 (8), the bdSeq
in `long_value`. -/
def fill_in_bdseq_metric (bd : Nat) (ts : Option Nat) : PMetric :=
  { name := some "bdSeq", timestamp := ts, datatype := 8, value := .vlong bd }

/-- `TahuServerInterface.new_nbirth`: set the `born` flag, reset the seq
counter and stamp 0, emit the bdSeq metric first (raising when bdSeq was
never set — the embedding returns the error and drops the mutations made
before the raise), then all node metrics from the organizer, then every
collected template definition as a Template-typed metric named
`_types_/<name>`.  `now` is the payload timestamp. -/
def TahuServerIface.new_nbirth (i : TahuServerIface) (now : Nat) :
    Except String (TPayload × TahuServerIface) :=
  let i1 := { i with is_born := true }
  let sp := i1.seqSt.reset_and_advance
  match i1.bdSeq with
  | none => .error "bdSeq not set"
  | some bd => do
    let r ← i1.node_organizer.get_all
    let tmetrics := i1.templates.map (fun p =>
      ({ name := some ("_types_/" ++ p.1), timestamp := some now, datatype := 19,
         value := p.2 } : PMetric))
    .ok ({ timestamp := some now, seq := some sp.1,
           metrics := fill_in_bdseq_metric bd (some now) :: r.1 ++ tmetrics },
         { i1 with seqSt := sp.2, node_organizer := r.2 })

/-! ## Server engine publication step (server_engine.py)

Only the publication logic the claim speaks about is modelled: which
messages `_publish_metric_updates` publishes.  The wire-interface
bookkeeping inside `_rebirth_node` / `_rebirth_device` is abstracted to the
kind of the published message. -/

/-- The endpoint state consulted by the publication step: the birth
certificate freshness flag and the pending metric deltas that
`icpw_updated_metrics()` would return (name and new value). -/
structure EngineEndpoint where
  birth_fresh : Bool
  updated : List (String × IValue)
  deriving Repr

structure EngineState where
  node : EngineEndpoint
  devices : List (String × EngineEndpoint)
  deriving Repr

inductive PubMsg where
  | ndata (p : TPayload)
  | nbirth
  | ddata (device_id : String) (p : TPayload)
  | dbirth (device_id : String)
  deriving Repr

/-- `ServerEngine._create_updated_endpoint_metric_payload`:
`icpw_updated_metrics()` snapshots and clears the deltas; with no changed
metric the result is `None` and no payload is built, otherwise a payload
carrying one metric per change (note: no `seq` is stamped here). -/
def create_updated_endpoint_metric_payload (now : Nat) (e : EngineEndpoint) :
    Option TPayload × EngineEndpoint :=
  let deltas := e.updated
  let e2 := { e with updated := [] }
  (if deltas.isEmpty then none
   else some { timestamp := some now,
               metrics := deltas.map (fun p =>
                 ({ name := some p.1, timestamp := some now, datatype := p.2.datatypeCode,
                    value := p.2.encValue } : PMetric)) },
   e2)

/-- `ServerEngine._publish_node_metric_updates`: with a fresh birth
certificate publish NDATA only when some metric changed; otherwise rebirth
(publishing an NBIRTH) and mark the certificate fresh (the deltas are not
snapshotted on that path, as in the source). -/
def publish_node_metric_updates (now : Nat) (s : EngineState) : EngineState × List PubMsg :=
  if s.node.birth_fresh then
    let r := create_updated_endpoint_metric_payload now s.node
    ({ s with node := r.2 },
     match r.1 with
     | some p => [.ndata p]
     | none => [])
  else
    ({ s with node := { s.node with birth_fresh := true } }, [.nbirth])

/-- `ServerEngine._publish_device_metric_updates`: the same logic for every
device entry (the source iterates all devices, up or down). -/
def publish_device_metric_updates (now : Nat) :
    List (String × EngineEndpoint) → List (String × EngineEndpoint) × List PubMsg
  | [] => ([], [])
  | (did, e) :: rest =>
    let r := publish_device_metric_updates now rest
    if e.birth_fresh then
      let c := create_updated_endpoint_metric_payload now e
      ((did, c.2) :: r.1,
       (match c.1 with
        | some p => [.ddata did p]
        | none => []) ++ r.2)
    else
      ((did, { e with birth_fresh := true }) :: r.1, .dbirth did :: r.2)

/-- `ServerEngine._publish_metric_updates`: node first, then the devices. -/
def publish_metric_updates (now : Nat) (s : EngineState) : EngineState × List PubMsg :=
  let rn := publish_node_metric_updates now s
  let rd := publish_device_metric_updates now rn.1.devices
  ({ rn.1 with devices := rd.1 }, rn.2 ++ rd.2)

/-- `ServerEngine._process_ScheduleQueueItem`: run the item's function body
— `body` returns the endpoint state at return or at the point of a raised
exception, plus whether it raised — and in a `finally` block always run
`_publish_metric_updates` on that state.  Returns the state, the published
messages, and the raised flag (a raised exception propagates after the
`finally`). -/
def process_ScheduleQueueItem (body : EngineState → EngineState × Bool) (now : Nat)
    (s : EngineState) : EngineState × List PubMsg × Bool :=
  let r := body s
  let p := publish_metric_updates now r.1
  (p.1, p.2, r.2)

/-- Concrete record from the spec's partial-update example:
`foo{x: Int64 = 7, y: String = "hello"}`. -/
def fooFields : IFields :=
  .cons "x" (.scalar (.int64 7)) (.cons "y" (.scalar (.string "hello")) .nil)

/-- A wire template carrying only the field `x = 9`. -/
def fooUpdate : WMetrics := .cons "x" 4 false (.vlong 9) .nil

/-- The wire metric delivering `fooUpdate` as a DDATA template metric. -/
def fooMetric : PMetric :=
  { datatype := 19, value := .vtemplate (some "foo") false fooUpdate }

/-- A committed organizer with two metrics `x` (alias 0) and `y` (alias 1),
as left by a birth. -/
def delOrganizer : MetricOrganizer :=
  { metrics := [("x", { name := some "x", datatype := 11, value := .vbool true }),
      ("y", { name := some "y", datatype := 12, value := .vstring "s" })],
    next_alias := 2,
    metric_names_to_aliases := [("x", 0), ("y", 1)],
    committed := true }

/-- An interface that has already issued its NBIRTH and has a registered
device. -/
def bornIface : TahuServerIface :=
  { bdSeq := some 0, is_born := true, device_organizers := [("dev", {})] }

/-- An interface before its first birth with a registered device. -/
def freshIface : TahuServerIface :=
  { bdSeq := some 0, device_organizers := [("dev", {})] }

def pm1 : PMetric := { name := some "m1", datatype := 11, value := .vbool true }

def pm2 : PMetric := { name := some "m2", datatype := 12, value := .vstring "s" }

/-- A concrete template instance `Tmpl{f: Int64 = 3}`. -/
def tmplInstance : WValue := .vtemplate (some "Tmpl") false (.cons "f" 4 false (.vlong 3) .nil)

/-- A committed node organizer with one boolean metric `x`. -/
def birthOrganizer : MetricOrganizer :=
  { metrics := [("x", { name := some "x", datatype := 11, value := .vbool true })],
    next_alias := 1,
    metric_names_to_aliases := [("x", 0)],
    committed := true }

/-- An interface ready to issue an NBIRTH: bdSeq 5, a stale seq counter, one
node metric and one collected template definition. -/
def birthIface : TahuServerIface :=
  { bdSeq := some 5, seqSt := ⟨9⟩,
    templates := [("Tmpl", (make_template_definition tmplInstance).1)],
    node_organizer := birthOrganizer }

/-- The single metric `get_all` returns for `birthOrganizer`. -/
def nodeAllX : PMetric :=
  { name := some "x", alias_ := some 0, datatype := 11, value := .vbool true }

/-! ## Theorems -/

/-- C1: a client endpoint record is reported online iff a birth has been seen
and (no death has been seen, or the last birth sequence strictly exceeds the
last death sequence, or the last death sequence is 255 while the last birth
sequence is below 255); in every other case — in particular when no birth was
ever seen — it is reported offline. -/
theorem is_online_iff_birth_after_death (r : LivenessRecord) :
    is_online r = true ↔
      ∃ b, r.lastBirthSeq = some b ∧
        (r.lastDeathSeq = none ∨
          ∃ d, r.lastDeathSeq = some d ∧ (b > d ∨ (d = 255 ∧ b < 255))) := by
  cases r with
  | mk birth death =>
    cases birth <;> cases death <;> simp [is_online]

/-- C5: evaluation of the topic codec at the failing input `"STATE/host"`.
The parser accepts the topic, but rebuilding it returns the literal text
`STATE/{self._scada_host_id}` — the source line lacks the `f` string prefix —
so `build (parse t) = t` fails for every STATE topic. -/
theorem parse_topic_state_roundtrip_fails :
    (parse_topic "STATE/host").map Topic.topic
        = .ok "STATE/\x7bself._scada_host_id\x7d" ∧
      (parse_topic "STATE/host").map Topic.topic ≠ .ok "STATE/host" := by
  refine ⟨rfl, ?_⟩
  intro h
  rw [show (parse_topic "STATE/host").map Topic.topic
        = .ok "STATE/\x7bself._scada_host_id\x7d" from rfl] at h
  exact absurd (Except.ok.inj h) (by decide)

/-- Helper for C3: a run with no NBIRTH from counter value `k < 256` emits
`(k + i) % 256` at position `i`. -/
theorem runSeqs_no_nbirth (ms : List ServerMsg) (h : ∀ m ∈ ms, m ≠ ServerMsg.nbirth)
    (k : Nat) (hk : k < 256) (i : Nat) (hi : i < ms.length) :
    (runSeqs ms ⟨k⟩).get? i = some ((k + i) % 256) := by
  induction ms generalizing k i with
  | nil => simp at hi
  | cons m ms ih =>
    have hm : m ≠ ServerMsg.nbirth := h m (List.mem_cons_self m ms)
    have hemit : emitSeq m ⟨k⟩ = (k, ⟨(k + 1) % 256⟩) := by
      cases m <;> simp_all [emitSeq, Seq.get_and_advance, Seq.advance]
    cases i with
    | zero => simp [runSeqs, hemit, Nat.mod_eq_of_lt hk]
    | succ j =>
      simp only [runSeqs, hemit, List.get?_cons_succ]
      have := ih (fun m hm => h m (List.mem_cons_of_mem _ hm)) ((k + 1) % 256)
        (Nat.mod_lt _ (by omega)) j (by simpa using hi)
      rw [this]
      congr 1
      omega

/-- C3: in the run of payloads consisting of one NBIRTH followed by any
DBIRTH/NDATA/DDATA/DDEATH payloads, the NBIRTH's `seq` is 0 and every
subsequent payload's `seq` is the previous one plus one modulo 256 —
a contiguous increasing run mod 256 starting at 0, from any prior counter
state. -/
theorem nbirth_run_seq_contiguous (rest : List ServerMsg)
    (h : ∀ m ∈ rest, m ≠ ServerMsg.nbirth) (s : Seq) :
    (runSeqs (ServerMsg.nbirth :: rest) s).get? 0 = some 0 ∧
      ∀ i v, (runSeqs (ServerMsg.nbirth :: rest) s).get? i = some v →
        i + 1 < (runSeqs (ServerMsg.nbirth :: rest) s).length →
        (runSeqs (ServerMsg.nbirth :: rest) s).get? (i + 1) = some ((v + 1) % 256) := by
  have hrun : runSeqs (ServerMsg.nbirth :: rest) s = 0 :: runSeqs rest ⟨1⟩ := by
    simp [runSeqs, emitSeq, Seq.reset_and_advance, Seq.reset, Seq.get_and_advance, Seq.advance]
  have hlen : ∀ (ms : List ServerMsg) (s : Seq), (runSeqs ms s).length = ms.length := by
    intro ms
    induction ms with
    | nil => intro s; rfl
    | cons m ms ih => intro s; simp [runSeqs, ih]
  have hget : ∀ i, i < (ServerMsg.nbirth :: rest).length →
      (runSeqs (ServerMsg.nbirth :: rest) s).get? i = some (i % 256) := by
    intro i hi
    rw [hrun]
    cases i with
    | zero => rfl
    | succ j =>
      rw [List.get?_cons_succ]
      rw [runSeqs_no_nbirth rest h 1 (by omega) j (by simpa using hi)]
      congr 1
      omega
  constructor
  · exact hget 0 (by simp)
  · intro i v hv hlt
    have hi : i < (ServerMsg.nbirth :: rest).length := by
      have := hlen (ServerMsg.nbirth :: rest) s
      omega
    have hv2 := hget i hi
    rw [hv] at hv2
    have : v = i % 256 := by
      injection hv2.symm with hvv
      omega
    subst this
    have hi1 : i + 1 < (ServerMsg.nbirth :: rest).length := by
      have := hlen (ServerMsg.nbirth :: rest) s
      omega
    rw [hget (i + 1) hi1]
    congr 1
    omega

/-- Helper: a stored fingerprint is found again under the same key. -/
theorem alookup_astore_self {α : Type} (d : List (String × α)) (k : String) (v : α) :
    alookup (astore d k v) k = some v := by
  induction d with
  | nil => simp [astore, alookup]
  | cons p rest ih =>
    by_cases h : p.1 = k
    · simp [astore, alookup, h]
    · cases p with
      | mk k' v' => simp_all [astore, alookup]

/-- C9 counterexample: deliveries `A, B, A` on one topic, where `A` carries
fingerprint `(5, 1)` and `B` fingerprint `(6, 2)`.  All three deliveries reach
the table update and user routing, so the fingerprint `(5, 1)` triggers them
twice — not at most once as claimed.  (`_seen_messages` only remembers the
most recent fingerprint per topic.) -/
theorem dedup_same_fingerprint_processed_twice :
    clientRun [] [⟨"t", false, some 5, some 1⟩, ⟨"t", false, some 6, some 2⟩,
        ⟨"t", false, some 5, some 1⟩] = [true, true, true] ∧
      ¬ ((([(⟨"t", false, some 5, some 1⟩ : InMsg), ⟨"t", false, some 6, some 2⟩,
            ⟨"t", false, some 5, some 1⟩].zip
            (clientRun [] [⟨"t", false, some 5, some 1⟩, ⟨"t", false, some 6, some 2⟩,
              ⟨"t", false, some 5, some 1⟩])).filter
            (fun p => p.2 && p.1 == ⟨"t", false, some 5, some 1⟩)).length ≤ 1) := by
  constructor
  · rfl
  · decide

/-- C9 (amended): deduplication holds while a fingerprint remains the most
recently seen one on its topic.  In particular, when two overlapping
subscriptions deliver the same message back to back — two adjacent deliveries
with the same topic and the same `(timestamp, seq)` fingerprint — the second
delivery never reaches the table update or the user callbacks. -/
theorem dedup_adjacent_duplicate_suppressed (seen : List (String × Nat × Nat))
    (pre post : List InMsg) (m1 m2 : InMsg) (t s : Nat)
    (h1 : m1.payloadEmpty = false) (h2 : m2.payloadEmpty = false)
    (htop : m2.topic = m1.topic)
    (ht1 : m1.timestamp = some t) (hs1 : m1.seq = some s)
    (ht2 : m2.timestamp = some t) (hs2 : m2.seq = some s) :
    (clientRun seen (pre ++ m1 :: m2 :: post)).get? (pre.length + 1) = some false := by
  induction pre generalizing seen with
  | nil =>
    have hseen1 : alookup (clientStep seen m1).2 m1.topic = some (t, s) := by
      rw [clientStep, h1]
      simp only [Bool.false_eq_true, if_false, ht1, hs1]
      by_cases hl : alookup seen m1.topic = some (t, s)
      · simp [hl]
      · simp [hl, alookup_astore_self]
    simp only [List.nil_append, clientRun, List.length_nil, Nat.zero_add]
    rw [List.get?_cons_succ, List.get?_cons_zero]
    rw [clientStep, h2]
    simp [ht2, hs2, htop, hseen1]
  | cons p pre ih =>
    simp only [List.cons_append, clientRun, List.length_cons]
    rw [show pre.length + 1 + 1 = (pre.length + 1) + 1 from rfl, List.get?_cons_succ]
    exact ih (clientStep seen p).2

/-- Witness for C9's amended theorem: a concrete adjacent duplicate pair. -/
theorem dedup_adjacent_duplicate_suppressed_witness :
    ((⟨"u", false, some 9, some 3⟩ : InMsg).payloadEmpty = false ∧
        (⟨"u", false, some 9, some 3⟩ : InMsg).topic = "u") ∧
      (clientRun [("v", 1, 1)]
          ([⟨"v", false, some 1, some 1⟩] ++ (⟨"u", false, some 9, some 3⟩ : InMsg)
            :: (⟨"u", false, some 9, some 3⟩ : InMsg) :: [⟨"w", false, some 2, some 2⟩])).get?
        ([(⟨"v", false, some 1, some 1⟩ : InMsg)].length + 1) = some false :=
  ⟨⟨rfl, rfl⟩,
    dedup_adjacent_duplicate_suppressed [("v", 1, 1)] [⟨"v", false, some 1, some 1⟩]
      [⟨"w", false, some 2, some 2⟩] ⟨"u", false, some 9, some 3⟩
      ⟨"u", false, some 9, some 3⟩ 9 3 rfl rfl rfl rfl rfl rfl rfl⟩


/-- Helper: updating a field dict at a key rewrites exactly that key's
value. -/
theorem update_lookup_self : ∀ (fs : IFields) (n : String) (f : IValue → IValue),
    (fs.update n f).lookup n = (fs.lookup n).map f
  | .nil, n, f => by simp [IFields.update, IFields.lookup]
  | .cons k v rest, n, f => by
    by_cases h : k = n <;>
      simp [IFields.update, IFields.lookup, h, update_lookup_self rest n f]

/-- Helper: updating a field dict leaves every other key unchanged. -/
theorem update_lookup_ne : ∀ (fs : IFields) (n k : String) (f : IValue → IValue), k ≠ n →
    (fs.update n f).lookup k = fs.lookup k
  | .nil, _, _, _, _ => by simp [IFields.update]
  | .cons k' v rest, n, k, f, h => by
    by_cases h2 : k' = n
    · subst h2
      have hne : k' ≠ k := fun e => h (e ▸ rfl)
      simp [IFields.update, IFields.lookup, hne]
    · by_cases h3 : k' = k <;>
        simp [IFields.update, IFields.lookup, h2, h3, h, update_lookup_ne rest n k f h]

/-- Helper: a field named by no submetric of the incoming template is
untouched by the merge walk. -/
theorem mergeFields_lookup_notmem (L : Int) : ∀ (ws : WMetrics) (fs : IFields) (n : String),
    n ∉ ws.names → (mergeFields L fs ws).lookup n = fs.lookup n
  | .nil, _, _, _ => rfl
  | .cons n0 dt0 inull0 v0 rest, fs, n, h => by
    have hne : n ≠ n0 ∧ n ∉ rest.names := by simpa [WMetrics.names] using h
    rw [show mergeFields L fs (.cons n0 dt0 inull0 v0 rest)
        = mergeFields L (fs.update n0 (fun old => mergeValue L old inull0 v0)) rest from rfl]
    rw [mergeFields_lookup_notmem L rest _ n hne.2]
    exact update_lookup_ne _ _ _ _ hne.1

/-- Helper: the merge walk commutes with a leading field it never names. -/
theorem mergeFields_cons_notmem (L : Int) : ∀ (ws : WMetrics) (n : String) (v : IValue)
    (fa : IFields), n ∉ ws.names →
    mergeFields L (.cons n v fa) ws = .cons n v (mergeFields L fa ws)
  | .nil, _, _, _, _ => rfl
  | .cons n0 dt0 inull0 v0 rest, n, v, fa, h => by
    have hne : n ≠ n0 ∧ n ∉ rest.names := by simpa [WMetrics.names] using h
    have hst : (IFields.cons n v fa).update n0 (fun old => mergeValue L old inull0 v0)
        = .cons n v (fa.update n0 (fun old => mergeValue L old inull0 v0)) := by
      simp [IFields.update, hne.1]
    rw [show mergeFields L (.cons n v fa) (.cons n0 dt0 inull0 v0 rest)
        = mergeFields L ((IFields.cons n v fa).update n0
            (fun old => mergeValue L old inull0 v0)) rest from rfl]
    rw [hst, mergeFields_cons_notmem L rest n v _ hne.2]
    rfl

/-- Helper: an entry of a template's metric list contributes its name to the
name list. -/
theorem mem_toList_fst : ∀ (ws : WMetrics) (sub : String × Nat × Bool × WValue),
    sub ∈ ws.toList → sub.1 ∈ ws.names
  | .cons n0 dt0 inull0 v0 rest, sub, h => by
    rcases (by simpa [WMetrics.toList] using h :
        sub = (n0, dt0, inull0, v0) ∨ sub ∈ rest.toList) with h1 | h2
    · subst h1; simp [WMetrics.names]
    · simp [WMetrics.names, mem_toList_fst rest sub h2]

/-- Helper: a field named by a submetric ends up as the merge of its prior
value with that submetric. -/
theorem mergeFields_lookup_present (L : Int) : ∀ (ws : WMetrics) (fs : IFields),
    ws.names.Nodup →
    ∀ sub ∈ ws.toList, (mergeFields L fs ws).lookup sub.1
      = (fs.lookup sub.1).map (fun old => mergeValue L old sub.2.2.1 sub.2.2.2)
  | .nil, _, _ => by simp [WMetrics.toList]
  | .cons n0 dt0 inull0 v0 rest, fs, hnodup => by
    intro sub hsub
    have hnodup2 : n0 ∉ rest.names ∧ rest.names.Nodup := by
      simpa [WMetrics.names, List.nodup_cons] using hnodup
    rcases (by simpa [WMetrics.toList] using hsub :
        sub = (n0, dt0, inull0, v0) ∨ sub ∈ rest.toList) with h1 | h2
    · subst h1
      rw [show mergeFields L fs (.cons n0 dt0 inull0 v0 rest)
          = mergeFields L (fs.update n0 (fun old => mergeValue L old inull0 v0)) rest from rfl]
      rw [mergeFields_lookup_notmem L rest _ _ hnodup2.1]
      exact update_lookup_self fs n0 _
    · have hmem := mem_toList_fst rest sub h2
      have hne : sub.1 ≠ n0 := fun e => hnodup2.1 (e ▸ hmem)
      rw [show mergeFields L fs (.cons n0 dt0 inull0 v0 rest)
          = mergeFields L (fs.update n0 (fun old => mergeValue L old inull0 v0)) rest from rfl]
      rw [mergeFields_lookup_present L rest _ hnodup2.2 sub h2]
      rw [update_lookup_ne _ _ _ _ hne]

/-- C2: merging a wire metric that carries a template with a subset of a
record's fields updates exactly the named fields and leaves every other
field at its prior value.  Conjuncts: (1) the cited
`ClientEndpointMetric.update_from_tahu` path (`merge_with_metric`) performs
the struct merge walk; (2) fields absent from the template are unchanged;
(3) each present field becomes the merge of its prior value with its
submetric; (4) for scalar fields that merge is an overwrite — it is
independent of the prior value, depending only on the field's class. -/
theorem struct_merge_partial_update (L : Int) (ref : String) (fs : IFields)
    (tref : Option String) (tdef : Bool) (ws : WMetrics) (m : PMetric) (dflt : IValue)
    (hnodup : ws.names.Nodup)
    (hval : m.value = .vtemplate tref tdef ws) (hnull : m.isNull = false) :
    merge_with_metric L (some (.struct ref fs)) m dflt
        = some (.struct ref (mergeFields L fs ws)) ∧
      (∀ n, n ∉ ws.names → (mergeFields L fs ws).lookup n = fs.lookup n) ∧
      (∀ sub ∈ ws.toList,
        (mergeFields L fs ws).lookup sub.1
          = (fs.lookup sub.1).map (fun old => mergeValue L old sub.2.2.1 sub.2.2.2)) ∧
      (∀ (s s2 : SValue) (inull : Bool) (w : WValue), s.sameClass s2 = true →
        mergeValue L (.scalar s) inull w = .scalar (mergeScalar L s inull w) ∧
        mergeScalar L s inull w = mergeScalar L s2 inull w) := by
  refine ⟨?_, ?_, ?_, ?_⟩
  · simp only [merge_with_metric, hnull, hval, Bool.false_eq_true, if_false, Option.getD_some,
      mergeValue]
  · intro n hn
    exact mergeFields_lookup_notmem L ws fs n hn
  · exact mergeFields_lookup_present L ws fs hnodup
  · intro s s2 inull w hcls
    refine ⟨by simp only [mergeValue], ?_⟩
    cases s <;> cases s2 <;>
      simp_all [SValue.sameClass, SValue.datatypeCode, mergeScalar]

/-- Witness for C2 at the spec's own example: `foo{x: Int64 = 7, y: String =
"hello"}` merged with a wire template carrying only `x = 9`. -/
theorem struct_merge_partial_update_witness :
    fooUpdate.names.Nodup ∧
      fooMetric.value = .vtemplate (some "foo") false fooUpdate ∧
      fooMetric.isNull = false ∧
      (merge_with_metric 0 (some (.struct "foo" fooFields)) fooMetric (.scalar (.boolean false))
          = some (.struct "foo" (mergeFields 0 fooFields fooUpdate)) ∧
        (∀ n, n ∉ fooUpdate.names →
          (mergeFields 0 fooFields fooUpdate).lookup n = fooFields.lookup n) ∧
        (∀ sub ∈ fooUpdate.toList,
          (mergeFields 0 fooFields fooUpdate).lookup sub.1
            = (fooFields.lookup sub.1).map
                (fun old => mergeValue 0 old sub.2.2.1 sub.2.2.2)) ∧
        (∀ (s s2 : SValue) (inull : Bool) (w : WValue), s.sameClass s2 = true →
          mergeValue 0 (.scalar s) inull w = .scalar (mergeScalar 0 s inull w) ∧
          mergeScalar 0 s inull w = mergeScalar 0 s2 inull w)) :=
  ⟨by decide, rfl, rfl,
    struct_merge_partial_update 0 "foo" fooFields (some "foo") false fooUpdate
      fooMetric (.scalar (.boolean false)) (by decide) rfl rfl⟩

/-- Helper for C6: decoding an encoded scalar from any same-class receiver
reconstructs it, except for `DateTime` (excluded). -/
theorem mergeScalar_enc_roundtrip (L : Int) (isNull : Bool) (a b : SValue)
    (hcls : a.sameClass b = true) (hr : b.wfRange) (hdt : b.isDatetime = false) :
    mergeScalar L a isNull b.enc = b := by
  cases b <;> cases a <;>
    simp_all [SValue.sameClass, SValue.datatypeCode, SValue.enc, mergeScalar,
      SValue.wfRange, SValue.isDatetime, WValue.intValue, WValue.longValue,
      WValue.doubleBits, WValue.boolValue, WValue.stringValue,
      convert_to_unsigned32, convert_to_unsigned64, convert_to_signed32,
      convert_to_signed64] <;> omega

/-- Helper for C6: dataset element round trip. -/
theorem decElem_encElem (sv : SValue) (hr : sv.wfRange) (hdt : sv.isDatetime = false) :
    decElem sv.datatypeCode (encElem sv.datatypeCode sv) = sv := by
  cases sv <;>
    simp_all [SValue.datatypeCode, encElem, decElem, SValue.wfRange, SValue.isDatetime,
      WElem.intValue, WElem.longValue, WElem.doubleBits, WElem.boolValue, WElem.stringValue,
      convert_to_unsigned32, convert_to_unsigned64, convert_to_signed32,
      convert_to_signed64] <;> omega

/-- Helper for C6: dataset row round trip. -/
theorem decodeRow_encRow (cols : List Nat) (r : List SValue)
    (h : List.Forall₂ (fun c sv => SValue.datatypeCode sv = c ∧ SValue.wfRange sv ∧
      SValue.isDatetime sv = false) cols r) :
    decodeRow cols (encRow cols r) = r := by
  induction h with
  | nil => rfl
  | @cons c sv cols2 r2 hcs _ ih =>
    obtain ⟨hc, hr, hdt⟩ := hcs
    subst hc
    show decElem _ (encElem _ sv) :: decodeRow cols2 (encRow cols2 r2) = sv :: r2
    rw [decElem_encElem sv hr hdt, ih]

/-- Helper for C6: encoding preserves the field name list. -/
theorem encFields_names : ∀ fs : IFields, (encFields fs).names = fs.names
  | .nil => rfl
  | .cons n v rest => by simp [encFields, WMetrics.names, IFields.names, encFields_names rest]

/-! The mutual round-trip induction for C6: merging the encoding of a
well-formed value into any value of the same type reconstructs the encoded
value. -/
mutual
theorem mergeValue_enc_roundtrip (L : Int) (isNull : Bool) (w v : IValue)
    (h : SameTyV w v) (hwf : WFV v) :
    mergeValue L w isNull v.encValue = v := by
  cases h with
  | @scalar a b hcls =>
    cases hwf with
    | scalar hr hdt =>
      simp only [IValue.encValue, mergeValue]
      rw [mergeScalar_enc_roundtrip L isNull a b hcls hr hdt]
  | @struct ref fa fb hf =>
    cases hwf with
    | struct hff hnodup =>
      simp only [IValue.encValue, mergeValue]
      rw [mergeFields_enc_roundtrip L fa fb hf hff hnodup]
  | @array cols ra rb =>
    cases hwf with
    | array hrows =>
      simp only [IValue.encValue, mergeValue, List.map_map]
      congr 1
      calc rb.map (fun r => decodeRow cols (encRow cols r))
          = rb.map id := List.map_congr_left (fun r hr => decodeRow_encRow cols r (hrows r hr))
        _ = rb := List.map_id rb
termination_by sizeOf v
theorem mergeFields_enc_roundtrip (L : Int) (fa fb : IFields)
    (h : SameTyF fa fb) (hwf : WFF fb) (hnodup : fb.names.Nodup) :
    mergeFields L fa (encFields fb) = fb := by
  cases h with
  | nil => rfl
  | @cons n a b fa2 fb2 hv hf =>
    cases hwf with
    | cons hwfv hwff =>
      have hnod : n ∉ fb2.names ∧ fb2.names.Nodup := by
        simpa [IFields.names, List.nodup_cons] using hnodup
      simp only [encFields, mergeFields]
      rw [show (IFields.cons n a fa2).update n (fun old => mergeValue L old false b.encValue)
          = .cons n (mergeValue L a false b.encValue) fa2 from by simp [IFields.update]]
      rw [mergeValue_enc_roundtrip L false a b hv hwfv]
      rw [mergeFields_cons_notmem L (encFields fb2) n b fa2
        (by rw [encFields_names]; exact hnod.1)]
      rw [mergeFields_enc_roundtrip L fa2 fb2 hf hwff hnod.2]
termination_by sizeOf fb
end

/-- C6 counterexample: a `DateTime` value does not survive the round trip.
The original is the (naive, as `datetime.now()` returns) wall clock of
1970-01-02; decoding the metric written by `set_in_metric` yields a
timezone-aware datetime (here with local offset 0, i.e. TZ=UTC), which is a
different value, and Python's `==` between a naive and an aware datetime is
`False`. -/
theorem datetime_roundtrip_fails :
    value_from_metric 0 (.scalar (.datetime ⟨0, none⟩))
        (set_in_metric (.scalar (.datetime ⟨86400000000, none⟩)) {})
      = .scalar (.datetime ⟨86400000000, some 0⟩) ∧
    IValue.scalar (.datetime ⟨86400000000, some 0⟩)
      ≠ .scalar (.datetime ⟨86400000000, none⟩) ∧
    PyDateTime.pyEq ⟨86400000000, none⟩ ⟨86400000000, some 0⟩ = false := by
  refine ⟨rfl, by decide, by decide⟩

/-- C6 (amended): for every well-formed value `v` of every supported Icypaw
type with no `DateTime` involved — all the other scalar classes, records,
and arrays — writing `v` into a wire metric with `set_in_metric` and
decoding that metric back into the same type (from any instance of it, in
particular the type's default) reconstructs a value equal to the
original. -/
theorem value_from_metric_set_roundtrip (L : Int) (m : PMetric) (w v : IValue)
    (hty : SameTyV w v) (hwf : WFV v) :
    value_from_metric L w (set_in_metric v m) = v := by
  simp only [value_from_metric, set_in_metric]
  exact mergeValue_enc_roundtrip L m.isNull w v hty hwf

/-- Witness for C6's amended theorem: a record with an `Int64`, a `String`
and a `UInt64`-column array field, decoded from the type's zero values. -/
theorem value_from_metric_set_roundtrip_witness :
    value_from_metric 0
        (.struct "foo" (.cons "x" (.scalar (.int64 0))
          (.cons "y" (.scalar (.string "")) (.cons "zs" (.array [8] []) .nil))))
        (set_in_metric
          (.struct "foo" (.cons "x" (.scalar (.int64 7))
            (.cons "y" (.scalar (.string "hello"))
              (.cons "zs" (.array [8] [[.uint64 5]]) .nil)))) {})
      = .struct "foo" (.cons "x" (.scalar (.int64 7))
          (.cons "y" (.scalar (.string "hello"))
            (.cons "zs" (.array [8] [[.uint64 5]]) .nil))) :=
  value_from_metric_set_roundtrip 0 {} _ _
    (SameTyV.struct (SameTyF.cons (SameTyV.scalar (by decide))
      (SameTyF.cons (SameTyV.scalar (by decide))
        (SameTyF.cons SameTyV.array SameTyF.nil))))
    (WFV.struct
      (WFF.cons (WFV.scalar (by constructor <;> decide) rfl)
        (WFF.cons (WFV.scalar trivial rfl)
          (WFF.cons (WFV.array (by
            intro r hr
            simp only [List.mem_singleton] at hr
            subst hr
            refine List.Forall₂.cons ⟨rfl, ?_, rfl⟩ List.Forall₂.nil
            show (5 : Nat) < 2 ^ 64
            decide))
            WFF.nil)))
      (by decide))

/-- Helper for C8: a payload built by
`_create_updated_endpoint_metric_payload` always carries at least one
metric. -/
theorem create_payload_some_nonempty (now : Nat) (e : EngineEndpoint) (p : TPayload)
    (h : (create_updated_endpoint_metric_payload now e).1 = some p) : p.metrics ≠ [] := by
  rcases hu : e.updated with _ | ⟨a, as⟩
  · simp [create_updated_endpoint_metric_payload, hu] at h
  · simp only [create_updated_endpoint_metric_payload, hu, List.isEmpty_cons,
      Bool.false_eq_true, if_false, Option.some.injEq] at h
    rw [← h]
    simp

/-- Helper for C8: the node publication step never publishes an
empty-metrics data payload. -/
theorem publish_node_data_nonempty (now : Nat) (s : EngineState) (msg : PubMsg)
    (h : msg ∈ (publish_node_metric_updates now s).2) :
    (∀ p, msg = PubMsg.ndata p → p.metrics ≠ []) ∧
      (∀ d p, msg = PubMsg.ddata d p → p.metrics ≠ []) := by
  unfold publish_node_metric_updates at h
  by_cases hf : s.node.birth_fresh
  · simp only [hf, if_true] at h
    cases hc : (create_updated_endpoint_metric_payload now s.node).1 with
    | none => simp [hc] at h
    | some p =>
      simp only [hc, List.mem_singleton] at h
      subst h
      refine ⟨?_, ?_⟩
      · intro p2 hp2
        have hpp : p2 = p := by injection hp2 with e1; exact e1.symm
        subst hpp
        exact create_payload_some_nonempty now s.node p2 hc
      · intro d p2 hp2
        exact absurd hp2 (by simp)
  · simp only [hf, Bool.false_eq_true, if_false, List.mem_singleton] at h
    subst h
    exact ⟨(fun p hp => nomatch hp), (fun d p hp => nomatch hp)⟩

/-- Helper for C8: the device publication loop never publishes an
empty-metrics data payload. -/
theorem publish_device_data_nonempty (now : Nat) :
    ∀ (ds : List (String × EngineEndpoint)) (msg : PubMsg),
      msg ∈ (publish_device_metric_updates now ds).2 →
      (∀ p, msg = PubMsg.ndata p → p.metrics ≠ []) ∧
        (∀ d p, msg = PubMsg.ddata d p → p.metrics ≠ [])
  | [], msg, h => by simp [publish_device_metric_updates] at h
  | (did, e) :: rest, msg, h => by
    unfold publish_device_metric_updates at h
    by_cases hf : e.birth_fresh
    · simp only [hf, if_true, List.mem_append] at h
      rcases h with h1 | h2
      · cases hc : (create_updated_endpoint_metric_payload now e).1 with
        | none => simp [hc] at h1
        | some p =>
          simp only [hc, List.mem_singleton] at h1
          subst h1
          refine ⟨(fun p2 hp2 => nomatch hp2), ?_⟩
          intro d p2 hp2
          have hpp : p2 = p := by injection hp2 with e1 e2; exact e2.symm
          subst hpp
          exact create_payload_some_nonempty now e p2 hc
      · exact publish_device_data_nonempty now rest msg h2
    · simp only [hf, Bool.false_eq_true, if_false, List.mem_cons] at h
      rcases h with h1 | h2
      · subst h1
        exact ⟨(fun p hp => nomatch hp), (fun d p hp => nomatch hp)⟩
      · exact publish_device_data_nonempty now rest msg h2

/-- C8: processing a Schedule work item always runs
`_publish_metric_updates` on the endpoint state left by the item's function
body — the published messages are exactly those of the publication step on
that state, whether or not the body raised (the `try`/`finally`) — and in
that publication step an NDATA or DDATA message is published only with at
least one changed metric: an empty-metrics data message is never sent. -/
theorem schedule_item_always_publishes (body : EngineState → EngineState × Bool)
    (now : Nat) (s : EngineState) :
    (process_ScheduleQueueItem body now s).2.1 = (publish_metric_updates now (body s).1).2 ∧
      ∀ msg ∈ (process_ScheduleQueueItem body now s).2.1,
        (∀ p, msg = PubMsg.ndata p → p.metrics ≠ []) ∧
          (∀ d p, msg = PubMsg.ddata d p → p.metrics ≠ []) := by
  refine ⟨rfl, ?_⟩
  intro msg hmsg
  have h2 : msg ∈ (publish_metric_updates now (body s).1).2 := hmsg
  unfold publish_metric_updates at h2
  simp only [List.mem_append] at h2
  rcases h2 with h3 | h4
  · exact publish_node_data_nonempty now (body s).1 msg h3
  · exact publish_device_data_nonempty now _ msg h4

/-- Witness for C3 at a concrete run: NBIRTH, NDATA, DDATA, DDEATH from the
counter state 123. -/
theorem nbirth_run_seq_contiguous_witness :
    (∀ m ∈ [ServerMsg.ndata, ServerMsg.ddata, ServerMsg.ddeath], m ≠ ServerMsg.nbirth) ∧
      ((runSeqs (ServerMsg.nbirth ::
          [ServerMsg.ndata, ServerMsg.ddata, ServerMsg.ddeath]) ⟨123⟩).get? 0 = some 0 ∧
        ∀ i v, (runSeqs (ServerMsg.nbirth ::
            [ServerMsg.ndata, ServerMsg.ddata, ServerMsg.ddeath]) ⟨123⟩).get? i = some v →
          i + 1 < (runSeqs (ServerMsg.nbirth ::
            [ServerMsg.ndata, ServerMsg.ddata, ServerMsg.ddeath]) ⟨123⟩).length →
          (runSeqs (ServerMsg.nbirth ::
            [ServerMsg.ndata, ServerMsg.ddata, ServerMsg.ddeath]) ⟨123⟩).get? (i + 1)
            = some ((v + 1) % 256)) :=
  ⟨by decide, nbirth_run_seq_contiguous
    [ServerMsg.ndata, ServerMsg.ddata, ServerMsg.ddeath] (by decide) ⟨123⟩⟩



/-- Helper: dict assignment leaves other keys unchanged. -/
theorem alookup_astore_ne {α : Type} (d : List (String × α)) (key k : String) (v : α)
    (h : k ≠ key) : alookup (astore d key v) k = alookup d k := by
  induction d with
  | nil => simp [astore, alookup, Ne.symm h]
  | cons q rest ih =>
    rcases q with ⟨k2, v2⟩
    by_cases h2 : k2 = key
    · subst h2
      simp [astore, alookup, Ne.symm h]
    · by_cases h3 : k2 = k <;> simp [astore, alookup, h2, h3, h, ih]

/-- Helper: a key held by no entry looks up to nothing. -/
theorem alookup_eq_none_of_forall {α : Type} (d : List (String × α)) (k : String)
    (h : ∀ p ∈ d, p.1 ≠ k) : alookup d k = none := by
  induction d with
  | nil => rfl
  | cons q rest ih =>
    rcases q with ⟨k2, v2⟩
    have h1 : k2 ≠ k := h (k2, v2) (List.mem_cons_self _ _)
    simp only [alookup, h1, if_false]
    exact ih (fun p hp => h p (List.mem_cons_of_mem _ hp))

/-- Helper: a key that looks up to nothing is held by no entry. -/
theorem alookup_none_forall {α : Type} (d : List (String × α)) (k : String)
    (h : alookup d k = none) : ∀ p ∈ d, p.1 ≠ k := by
  induction d with
  | nil => simp
  | cons q rest ih =>
    rcases q with ⟨k2, v2⟩
    by_cases h2 : k2 = k
    · subst h2
      rw [alookup, if_pos rfl] at h
      exact absurd h (by simp)
    · intro p hp
      rcases List.mem_cons.mp hp with hp1 | hp2
      · subst hp1; exact h2
      · rw [alookup, if_neg h2] at h
        exact ih h p hp2

/-- Helper: deleting a key of a dict (distinct keys) removes its binding. -/
theorem alookup_adelete_self {α : Type} (d : List (String × α)) (k : String)
    (hkeys : (d.map Prod.fst).Nodup) : alookup (adelete d k) k = none := by
  induction d with
  | nil => rfl
  | cons q rest ih =>
    rcases q with ⟨k2, v2⟩
    have hk : k2 ∉ rest.map Prod.fst ∧ (rest.map Prod.fst).Nodup := by simpa using hkeys
    by_cases h2 : k2 = k
    · subst h2
      rw [adelete, if_pos rfl]
      exact alookup_eq_none_of_forall rest k2
        (fun p hp e => hk.1 (e ▸ List.mem_map_of_mem Prod.fst hp))
    · rw [adelete, if_neg h2, alookup, if_neg h2]
      exact ih hk.2

/-- Helper: a successful lookup exhibits its entry. -/
theorem alookup_mem {α : Type} (d : List (String × α)) (k : String) (v : α)
    (h : alookup d k = some v) : (k, v) ∈ d := by
  induction d with
  | nil => simp [alookup] at h
  | cons q rest ih =>
    rcases q with ⟨k2, v2⟩
    by_cases h2 : k2 = k
    · subst h2
      rw [alookup, if_pos rfl] at h
      injection h with e
      subst e
      exact List.mem_cons_self _ _
    · rw [alookup, if_neg h2] at h
      exact List.mem_cons_of_mem _ (ih h)

/-- Helper: the inverse map only returns names bound to the alias. -/
theorem invLookupLast_mem : ∀ (d : List (String × Nat)) (a : Nat) (r : String),
    invLookupLast d a = some r → (r, a) ∈ d
  | [], _, _, h => by simp [invLookupLast] at h
  | (k2, v2) :: rest, a, r, h => by
    cases hr : invLookupLast rest a with
    | some r2 =>
      rw [invLookupLast, hr] at h
      injection h with e
      subst e
      exact List.mem_cons_of_mem _ (invLookupLast_mem rest a r2 hr)
    | none =>
      rw [invLookupLast, hr] at h
      by_cases h3 : v2 = a
      · rw [if_pos h3] at h
        injection h with e
        subst e
        subst h3
        exact List.mem_cons_self _ _
      · rw [if_neg h3] at h
        exact absurd h (by simp)

/-- Helper: the inverse map succeeds for any bound alias. -/
theorem invLookupLast_isSome : ∀ (d : List (String × Nat)) (a : Nat) (nm : String),
    (nm, a) ∈ d → ∃ r, invLookupLast d a = some r
  | (k2, v2) :: rest, a, nm, h => by
    cases hr : invLookupLast rest a with
    | some r2 => exact ⟨r2, by rw [invLookupLast, hr]⟩
    | none =>
      rcases List.mem_cons.mp h with h1 | h2
      · injection h1 with e1 e2
        subst e1; subst e2
        exact ⟨nm, by rw [invLookupLast, hr, if_pos rfl]⟩
      · obtain ⟨r, hrr⟩ := invLookupLast_isSome rest a nm h2
        rw [hr] at hrr
        exact absurd hrr (by simp)

/-- Helper: with the alias bound only to one name, the inverse map returns
that name. -/
theorem invLookupLast_unique (d : List (String × Nat)) (nm : String) (a : Nat)
    (hmem : (nm, a) ∈ d) (huniq : ∀ p ∈ d, p.2 = a → p.1 = nm) :
    invLookupLast d a = some nm := by
  obtain ⟨r, hr⟩ := invLookupLast_isSome d a nm hmem
  have := invLookupLast_mem d a r hr
  have : r = nm := huniq (r, a) this rfl
  rw [hr, this]



/-- Helper: committing metrics with other names cannot introduce a
binding for this name. -/
theorem foldl_astore_none : ∀ (ms : List PMetric) (acc : List (String × PMetric)) (nm : String),
    alookup acc nm = none → (∀ m ∈ ms, (m.name.getD "") ≠ nm) →
    alookup (ms.foldl (fun acc m => astore acc (m.name.getD "") m) acc) nm = none
  | [], acc, nm, h, _ => h
  | m :: rest, acc, nm, h, hall => by
    simp only [List.foldl_cons]
    refine foldl_astore_none rest _ nm ?_ (fun m2 hm2 => hall m2 (List.mem_cons_of_mem _ hm2))
    rw [alookup_astore_ne]
    · exact h
    · exact Ne.symm (hall m (List.mem_cons_self _ _))

/-- Helper: every metric `get_all` returns is named by a table entry. -/
theorem collectWithAliases_names (n2a : List (String × Nat)) :
    ∀ (ds : List (String × PMetric)) (l : List PMetric),
      collectWithAliases n2a ds = .ok l → ∀ m ∈ l, ∃ p ∈ ds, m.name = some p.1
  | [], l, h => by
    injection h with e
    subst e
    simp
  | p :: rest, l, h => by
    rcases p with ⟨nm0, m0⟩
    cases ha : alookup n2a nm0 with
    | none =>
      rw [collectWithAliases, ha] at h
      exact absurd h (by simp)
    | some a =>
      rw [collectWithAliases, ha] at h
      cases hrec : collectWithAliases n2a rest with
      | error e =>
        rw [hrec] at h
        exact absurd h (by simp [Except.map])
      | ok l2 =>
        rw [hrec] at h
        simp only [Except.map] at h
        injection h with e
        subst e
        intro m hm
        rcases List.mem_cons.mp hm with h1 | h2
        · exact ⟨(nm0, m0), List.mem_cons_self _ _, by rw [h1]⟩
        · obtain ⟨p, hp, he⟩ := collectWithAliases_names n2a rest l2 hrec m h2
          exact ⟨p, List.mem_cons_of_mem _ hp, he⟩

/-- Helper: `_add_metric` on a name that already has an alias reuses it and
leaves the alias counter untouched. -/
theorem add_metric_known_alias (o : MetricOrganizer) (m : PMetric) (nm : String) (a : Nat)
    (hm : m.name = some nm) (ha : alookup o.metric_names_to_aliases nm = some a) :
    ∃ o4, o._add_metric m = .ok o4 ∧ o4.next_alias = o.next_alias ∧
      o4.metric_names_to_aliases = o.metric_names_to_aliases ∧
      o4.metrics = astore o.metrics nm { m with alias_ := some a } := by
  cases hv : m.value <;>
    · simp only [MetricOrganizer._add_metric, hm, ha, hv]
      exact ⟨_, rfl, rfl, rfl, rfl⟩



/-- Helper: a raised exception propagates through a `do` block. -/
theorem except_bind_error {α β : Type} (e : String) (f : α → Except String β) :
    (Except.error e >>= f) = Except.error e := rfl

/-- Helper: a normal return continues a `do` block. -/
theorem except_bind_ok {α β : Type} (a : α) (f : α → Except String β) :
    (Except.ok a >>= f) = f a := rfl

/-- Helper: `get_all` never returns a metric under a name that is in neither
the table nor the uncommitted list. -/
theorem get_all_excludes_name (o2 : MetricOrganizer) (nm : String)
    (hbase : alookup o2.metrics nm = none)
    (hunc : ∀ m ∈ o2.uncommitted_metrics, (m.name.getD "") ≠ nm) :
    ∀ l o3, o2.get_all = .ok (l, o3) → ∀ m ∈ l, m.name ≠ some nm := by
  intro l o3 hga m hml hcontra
  rw [MetricOrganizer.get_all] at hga
  cases hcol : collectWithAliases o2._commit_metrics.metric_names_to_aliases
      o2._commit_metrics.metrics with
  | error e =>
    rw [hcol, except_bind_error] at hga
    exact absurd hga (by simp)
  | ok ms =>
    rw [hcol, except_bind_ok] at hga
    simp only [Except.ok.injEq, Prod.mk.injEq] at hga
    have hml2 : m ∈ ms := hga.1 ▸ hml
    have hnone : alookup o2._commit_metrics.metrics nm = none := by
      simp only [MetricOrganizer._commit_metrics]
      exact foldl_astore_none _ _ nm hbase hunc
    obtain ⟨p, hp, he⟩ := collectWithAliases_names _ _ _ hcol m hml2
    rw [hcontra] at he
    exact alookup_none_forall _ _ hnone p hp (by injection he with e2; exact e2.symm)

/-- C10: after `MetricOrganizer.delete(name)` removes a previously added
metric, the name-to-alias binding survives: `get_alias(name)` and
`get_name(alias)` still succeed with the old values even though the metric
no longer appears in `get_all()`, and `_add_metric` with the same name
reuses the same alias without advancing the alias counter. -/
theorem delete_preserves_alias_binding (o : MetricOrganizer) (nm : String) (a : Nat)
    (hmem : amem o.metrics nm = true)
    (halias : alookup o.metric_names_to_aliases nm = some a)
    (huniq : ∀ p ∈ o.metric_names_to_aliases, p.2 = a → p.1 = nm)
    (hkeys : (o.metrics.map Prod.fst).Nodup) :
    (o.delete nm).get_alias nm = .ok a ∧
      (o.delete nm).get_name a = .ok nm ∧
      (∀ l o3, (o.delete nm).get_all = .ok (l, o3) → ∀ m ∈ l, m.name ≠ some nm) ∧
      (∀ m : PMetric, m.name = some nm →
        ∃ o4, (o.delete nm)._add_metric m = .ok o4 ∧
          o4.next_alias = (o.delete nm).next_alias ∧
          alookup o4.metric_names_to_aliases nm = some a ∧
          alookup o4.metrics nm = some { m with alias_ := some a }) := by
  have hn2a : (o.delete nm).metric_names_to_aliases = o.metric_names_to_aliases := by
    simp [MetricOrganizer.delete, hmem]
  refine ⟨?_, ?_, ?_, ?_⟩
  · rw [MetricOrganizer.get_alias, hn2a, halias]
  · rw [MetricOrganizer.get_name, hn2a,
      invLookupLast_unique o.metric_names_to_aliases nm a
        (alookup_mem _ _ _ halias) huniq]
  · refine get_all_excludes_name (o.delete nm) nm ?_ ?_
    · rw [show (o.delete nm).metrics = adelete o.metrics nm from by
        simp [MetricOrganizer.delete, hmem]]
      exact alookup_adelete_self o.metrics nm hkeys
    · rw [show (o.delete nm).uncommitted_metrics = o.uncommitted_metrics.filter
          (fun m => (m.name.getD "") ≠ nm) from by simp [MetricOrganizer.delete, hmem]]
      intro m2 hm2
      exact of_decide_eq_true (List.mem_filter.mp hm2).2
  · intro m hm
    have ha2 : alookup (o.delete nm).metric_names_to_aliases nm = some a := by
      rw [hn2a]
      exact halias
    obtain ⟨o4, hadd, h1, h2, h3⟩ := add_metric_known_alias (o.delete nm) m nm a hm ha2
    refine ⟨o4, hadd, h1, ?_, ?_⟩
    · rw [h2, hn2a]
      exact halias
    · rw [h3]
      exact alookup_astore_self _ _ _



/-- Helper: `_add_metric` on an unseen name takes the next alias and
advances the counter. -/
theorem add_metric_new_alias (o : MetricOrganizer) (m : PMetric) (nm : String)
    (hm : m.name = some nm) (ha : alookup o.metric_names_to_aliases nm = none) :
    ∃ o1, o._add_metric m = .ok o1 ∧ o1.next_alias = o.next_alias + 1 ∧
      o1.metric_names_to_aliases = astore o.metric_names_to_aliases nm o.next_alias := by
  cases hv : m.value <;>
    · simp only [MetricOrganizer._add_metric, hm, ha, hv]
      exact ⟨_, rfl, rfl, rfl⟩

/-- Helper for C7: adding named, distinct, unseen metrics assigns aliases in
insertion order starting at the current counter. -/
theorem addAll_fresh_aliases : ∀ (ms : List PMetric) (o : MetricOrganizer),
    (∀ m ∈ ms, m.name ≠ none) →
    (ms.map (fun m => m.name.getD "")).Nodup →
    (∀ m ∈ ms, alookup o.metric_names_to_aliases (m.name.getD "") = none) →
    ∃ o2, addAllMetrics o ms = .ok o2 ∧
      o2.next_alias = o.next_alias + ms.length ∧
      (∀ nm v, alookup o.metric_names_to_aliases nm = some v →
        alookup o2.metric_names_to_aliases nm = some v) ∧
      (∀ k, ∀ hk : k < ms.length, alookup o2.metric_names_to_aliases
        ((ms.get ⟨k, hk⟩).name.getD "") = some (o.next_alias + k))
  | [], o, _, _, _ =>
    ⟨o, rfl, by simp, fun nm v h => h, fun k hk => absurd hk (by simp)⟩
  | m :: rest, o, hnamed, hnodup, hfresh => by
    have hm : ∃ nm, m.name = some nm := by
      cases hmn : m.name with
      | none => exact absurd hmn (hnamed m (List.mem_cons_self _ _))
      | some nm => exact ⟨nm, rfl⟩
    obtain ⟨nm, hm⟩ := hm
    have hgd : m.name.getD "" = nm := by rw [hm]; rfl
    have hfr : alookup o.metric_names_to_aliases nm = none := by
      rw [← hgd]
      exact hfresh m (List.mem_cons_self _ _)
    obtain ⟨o1, hadd, hnext, hn2a⟩ := add_metric_new_alias o m nm hm hfr
    have hnodup2 : nm ∉ rest.map (fun m => m.name.getD "") ∧
        (rest.map (fun m => m.name.getD "")).Nodup := by
      have := hnodup
      simp only [List.map_cons, List.nodup_cons, hgd] at this
      exact this
    have hfresh2 : ∀ m2 ∈ rest, alookup o1.metric_names_to_aliases (m2.name.getD "") = none := by
      intro m2 hm2
      rw [hn2a, alookup_astore_ne]
      · exact hfresh m2 (List.mem_cons_of_mem _ hm2)
      · intro e
        exact hnodup2.1 (e ▸ List.mem_map_of_mem (fun m => m.name.getD "") hm2)
    obtain ⟨o2, haddall, hnext2, hpres, hpos⟩ := addAll_fresh_aliases rest o1
      (fun m2 hm2 => hnamed m2 (List.mem_cons_of_mem _ hm2)) hnodup2.2 hfresh2
    refine ⟨o2, ?_, ?_, ?_, ?_⟩
    · rw [show addAllMetrics o (m :: rest)
          = (o._add_metric m >>= fun o2 => addAllMetrics o2 rest) from rfl]
      rw [hadd, except_bind_ok]
      exact haddall
    · rw [hnext2, hnext]
      simp only [List.length_cons]
      omega
    · intro nm2 v h
      refine hpres nm2 v ?_
      rw [hn2a, alookup_astore_ne]
      · exact h
      · intro e
        subst e
        rw [hfr] at h
        exact absurd h (by simp)
    · intro k hk
      cases k with
      | zero =>
        have : alookup o1.metric_names_to_aliases nm = some o.next_alias := by
          rw [hn2a]
          exact alookup_astore_self _ _ _
        have h2 := hpres nm o.next_alias this
        simpa [hgd] using h2
      | succ k2 =>
        have hk2 : k2 < rest.length := by simpa using hk
        have := hpos k2 hk2
        rw [hnext] at this
        have harith : o.next_alias + 1 + k2 = o.next_alias + (k2 + 1) := by omega
        rw [harith] at this
        simpa using this



/-- C7 (amended): `set_initial_node_metrics` fails once the first birth has
been emitted and otherwise succeeds, assigning aliases in insertion order —
but `set_initial_device_metrics` performs no such check: it succeeds on any
registered device regardless of the `born` flag (the organizer itself is
never sealed), likewise assigning aliases in insertion order. -/
theorem set_initial_metrics_seal (i : TahuServerIface) (ms : List PMetric)
    (hnamed : ∀ m ∈ ms, m.name ≠ none)
    (hnodup : (ms.map (fun m => m.name.getD "")).Nodup) :
    (i.is_born = true → i.set_initial_node_metrics ms
        = .error "Cannot set initial metrics after issuing BIRTH message") ∧
      (i.is_born = false → i.node_organizer = {} →
        ∃ i2, i.set_initial_node_metrics ms = .ok i2 ∧
          ∀ k, ∀ hk : k < ms.length,
            alookup i2.node_organizer.metric_names_to_aliases
              ((ms.get ⟨k, hk⟩).name.getD "") = some k) ∧
      (∀ dev, alookup i.device_organizers dev = some {} →
        ∃ i2, i.set_initial_device_metrics dev ms = .ok i2 ∧
          ∃ o2, alookup i2.device_organizers dev = some o2 ∧
            ∀ k, ∀ hk : k < ms.length,
              alookup o2.metric_names_to_aliases
                ((ms.get ⟨k, hk⟩).name.getD "") = some k) := by
  have hcore : ∃ o2, addAllMetrics ({} : MetricOrganizer) ms = .ok o2 ∧
      ∀ k, ∀ hk : k < ms.length,
        alookup o2.metric_names_to_aliases ((ms.get ⟨k, hk⟩).name.getD "") = some k := by
    obtain ⟨o2, h1, _, _, h4⟩ := addAll_fresh_aliases ms {} hnamed hnodup
      (fun m _ => rfl)
    exact ⟨o2, h1, fun k hk => by simpa using h4 k hk⟩
  obtain ⟨o2, haddall, haliases⟩ := hcore
  refine ⟨?_, ?_, ?_⟩
  · intro hborn
    simp [TahuServerIface.set_initial_node_metrics, hborn]
  · intro hborn horg
    rw [TahuServerIface.set_initial_node_metrics, if_neg (by rw [hborn]; simp)]
    rw [horg]
    rw [show ({} : MetricOrganizer).set_initial_metrics ms
        = (addAllMetrics {} ms >>= fun o3 =>
            .ok ({ o3 with committed := true },
              ({ o3 with committed := true } : MetricOrganizer).template_definitions))
        from rfl]
    rw [haddall, except_bind_ok, except_bind_ok]
    exact ⟨_, rfl, fun k hk => haliases k hk⟩
  · intro dev hdev
    simp only [TahuServerIface.set_initial_device_metrics, hdev]
    rw [show ({} : MetricOrganizer).set_initial_metrics ms
        = (addAllMetrics {} ms >>= fun o3 =>
            .ok ({ o3 with committed := true },
              ({ o3 with committed := true } : MetricOrganizer).template_definitions))
        from rfl]
    rw [haddall, except_bind_ok, except_bind_ok]
    refine ⟨_, rfl, ?_⟩
    refine ⟨{ o2 with committed := true }, ?_, fun k hk => haliases k hk⟩
    exact alookup_astore_self _ _ _



/-- Helper for C4: the template-definition scrubbing clears every
non-DataSet submetric value. -/
theorem clearNonDataset_spec : ∀ (ms : WMetrics), ∀ sub ∈ (clearNonDatasetValues ms).toList,
    sub.2.1 ≠ 16 → sub.2.2.2 = .vnone
  | .nil, sub, h => by simp [clearNonDatasetValues, WMetrics.toList] at h
  | .cons n dt inull v rest, sub, h => by
    rcases (by simpa [clearNonDatasetValues, WMetrics.toList] using h :
        sub = (n, dt, inull, if dt = 16 then v else .vnone)
          ∨ sub ∈ (clearNonDatasetValues rest).toList) with h1 | h2
    · subst h1
      intro hne
      simp only at hne ⊢
      rw [if_neg hne]
    · exact clearNonDataset_spec rest sub h2

/-- C4: with bdSeq set, `new_nbirth` sets the `born` flag, stamps `seq` 0
(resetting the counter), and lays out the payload as the bdSeq metric
(UInt64, carrying the bdSeq) first, then all node metrics from the
organizer, then every collected template definition as a Template-typed
(19) metric named `_types_/<ref>` whose value has `is_definition` true, the
reference cleared, and all field values cleared except DataSet-typed ones;
with bdSeq unset it raises `TahuInterfaceError`. -/
theorem new_nbirth_structure (i : TahuServerIface) (now bd : Nat)
    (hbd : i.bdSeq = some bd)
    (nodeAll : List PMetric) (org2 : MetricOrganizer)
    (hga : i.node_organizer.get_all = .ok (nodeAll, org2))
    (htempl : ∀ p ∈ i.templates, ∃ ref isDef tms,
      p.2 = (make_template_definition (WValue.vtemplate ref isDef tms)).1) :
    i.new_nbirth now = .ok
      ({ timestamp := some now, seq := some 0,
         metrics := fill_in_bdseq_metric bd (some now) :: nodeAll
           ++ i.templates.map (fun p =>
             ({ name := some ("_types_/" ++ p.1), timestamp := some now, datatype := 19,
                value := p.2 } : PMetric)) },
       { i with is_born := true, seqSt := ⟨1⟩, node_organizer := org2 }) ∧
      fill_in_bdseq_metric bd (some now)
        = { name := some "bdSeq", timestamp := some now, datatype := 8,
            value := .vlong bd } ∧
      (∀ p ∈ i.templates, ∃ tms, p.2 = .vtemplate none true tms ∧
        ∀ sub ∈ WMetrics.toList tms, sub.2.1 ≠ 16 → sub.2.2.2 = .vnone) ∧
      (∀ (j : TahuServerIface) (now2 : Nat), j.bdSeq = none →
        j.new_nbirth now2 = .error "bdSeq not set") := by
  refine ⟨?_, rfl, ?_, ?_⟩
  · simp only [TahuServerIface.new_nbirth, hbd, hga, except_bind_ok,
      Seq.reset_and_advance, Seq.reset, Seq.get_and_advance, Seq.advance]
  · intro p hp
    obtain ⟨ref, isDef, tms, he⟩ := htempl p hp
    refine ⟨clearNonDatasetValues tms, ?_, clearNonDataset_spec tms⟩
    rw [he]
    rfl
  · intro j now2 hj
    simp [TahuServerIface.new_nbirth, hj]



/-- C7 counterexample: on an interface that has already emitted its NBIRTH,
`set_initial_device_metrics` succeeds rather than failing — the claim's
"every organizer fails after first birth" is false for device
organizers (this is in fact the engine's normal device-registration
path). -/
theorem set_initial_device_after_birth_succeeds :
    bornIface.is_born = true ∧
      exceptIsOk (bornIface.set_initial_device_metrics "dev" [pm1]) = true :=
  ⟨rfl, rfl⟩

/-- Witness for C7's amended theorem at a fresh interface with two
metrics. -/
theorem set_initial_metrics_seal_witness :
    (∀ m ∈ [pm1, pm2], m.name ≠ none) ∧
      (([pm1, pm2].map (fun m => m.name.getD "")).Nodup) ∧
      ((freshIface.is_born = true → freshIface.set_initial_node_metrics [pm1, pm2]
          = .error "Cannot set initial metrics after issuing BIRTH message") ∧
        (freshIface.is_born = false → freshIface.node_organizer = {} →
          ∃ i2, freshIface.set_initial_node_metrics [pm1, pm2] = .ok i2 ∧
            ∀ k, ∀ hk : k < [pm1, pm2].length,
              alookup i2.node_organizer.metric_names_to_aliases
                (([pm1, pm2].get ⟨k, hk⟩).name.getD "") = some k) ∧
        (∀ dev, alookup freshIface.device_organizers dev = some {} →
          ∃ i2, freshIface.set_initial_device_metrics dev [pm1, pm2] = .ok i2 ∧
            ∃ o2, alookup i2.device_organizers dev = some o2 ∧
              ∀ k, ∀ hk : k < [pm1, pm2].length,
                alookup o2.metric_names_to_aliases
                  (([pm1, pm2].get ⟨k, hk⟩).name.getD "") = some k)) :=
  ⟨by decide, by decide,
    set_initial_metrics_seal freshIface [pm1, pm2] (by decide) (by decide)⟩

/-- Witness for C10 on a two-metric organizer, deleting `x` (alias 0). -/
theorem delete_preserves_alias_binding_witness :
    amem delOrganizer.metrics "x" = true ∧
      alookup delOrganizer.metric_names_to_aliases "x" = some 0 ∧
      (∀ p ∈ delOrganizer.metric_names_to_aliases, p.2 = 0 → p.1 = "x") ∧
      (delOrganizer.metrics.map Prod.fst).Nodup ∧
      ((delOrganizer.delete "x").get_alias "x" = .ok 0 ∧
        (delOrganizer.delete "x").get_name 0 = .ok "x" ∧
        (∀ l o3, (delOrganizer.delete "x").get_all = .ok (l, o3) →
          ∀ m ∈ l, m.name ≠ some "x") ∧
        (∀ m : PMetric, m.name = some "x" →
          ∃ o4, (delOrganizer.delete "x")._add_metric m = .ok o4 ∧
            o4.next_alias = (delOrganizer.delete "x").next_alias ∧
            alookup o4.metric_names_to_aliases "x" = some 0 ∧
            alookup o4.metrics "x" = some { m with alias_ := some 0 })) :=
  ⟨rfl, rfl, by decide, by decide,
    delete_preserves_alias_binding delOrganizer "x" 0 rfl rfl (by decide) (by decide)⟩

/-- Witness for C4 on `birthIface` at timestamp 1000. -/
theorem new_nbirth_structure_witness :
    birthIface.bdSeq = some 5 ∧
      birthIface.node_organizer.get_all = .ok ([nodeAllX], birthOrganizer) ∧
      (∀ p ∈ birthIface.templates, ∃ ref isDef tms,
        p.2 = (make_template_definition (WValue.vtemplate ref isDef tms)).1) ∧
      (birthIface.new_nbirth 1000 = .ok
        ({ timestamp := some 1000, seq := some 0,
           metrics := fill_in_bdseq_metric 5 (some 1000) :: [nodeAllX]
             ++ birthIface.templates.map (fun p =>
               ({ name := some ("_types_/" ++ p.1), timestamp := some 1000, datatype := 19,
                  value := p.2 } : PMetric)) },
         { birthIface with is_born := true, seqSt := ⟨1⟩, node_organizer := birthOrganizer }) ∧
      fill_in_bdseq_metric 5 (some 1000)
        = { name := some "bdSeq", timestamp := some 1000, datatype := 8,
            value := .vlong 5 } ∧
      (∀ p ∈ birthIface.templates, ∃ tms, p.2 = .vtemplate none true tms ∧
        ∀ sub ∈ WMetrics.toList tms, sub.2.1 ≠ 16 → sub.2.2.2 = .vnone) ∧
      (∀ (j : TahuServerIface) (now2 : Nat), j.bdSeq = none →
        j.new_nbirth now2 = .error "bdSeq not set")) :=
  ⟨rfl, rfl,
    (fun p hp => by
      simp only [birthIface, List.mem_singleton] at hp
      subst hp
      exact ⟨some "Tmpl", false, WMetrics.cons "f" 4 false (.vlong 3) .nil, rfl⟩),
    new_nbirth_structure birthIface 1000 5 rfl [nodeAllX] birthOrganizer rfl
      (fun p hp => by
        simp only [birthIface, List.mem_singleton] at hp
        subst hp
        exact ⟨some "Tmpl", false, WMetrics.cons "f" 4 false (.vlong 3) .nil, rfl⟩)⟩


end Icypaw
